import Mathlib

/-!
# Zedge publisher worker — shallow embedding and verification

This file embeds the scheduling-and-publishing core of the zedge-worker
repository (`src/unnamed/part_002`, the v2 worker, with the sibling variant
`src/worker.js` where a claim refers to it) and proves or refutes the frozen
claims about it.

Conventions of the embedding:
* JSON documents are Lean structures carrying exactly the fields the claims
  touch (`schedule`, `recentlyPublished`, `db_config.active_index`); the
  remaining fields (`settings`, `activeResults`, `recycleBin`) play no role in
  any claim and are omitted.
* Timestamps (`scheduledAtUTC`, wall-clock `now`) are integers, in
  milliseconds, matching the `Date` arithmetic of the source.
* A database backend's `app_data` table has a single row (`id = 1`); its
  contents are an `Option AppData` (`none` = row absent).  A pool variable
  that may be `undefined` is an `Option` around that.
* I/O failures (a connect or query throwing) are modelled by explicit fault
  flags passed to the function under scrutiny, exactly at the points where the
  source wraps the corresponding call in a `try`/`catch`.
* Asynchronous fire-and-forget calls (the queue drain triggered from the scan
  cycle and from the manual-publish commands) are recorded as a boolean
  "drain started" output and the drain itself is modelled as its own function,
  mirroring the fact that in the source the drain runs concurrently with its
  trigger.
-/

namespace ZedgeWorker

/-- Status strings of a scheduled item (`'Pending' | 'Published' | 'Failed'`). -/
inductive Status
  | Pending
  | Published
  | Failed
deriving Repr, DecidableEq

/-- A scheduled item, as stored in the persisted document.  `status = none`
models an absent `status` field (the source treats it as pending via
`!item.status || item.status === 'Pending'`). -/
structure Item where
  id : String
  title : String
  theme : String
  scheduledAtUTC : Option Int
  status : Option Status
  failMessage : Option String
  publishedAtUTC : Option Int
deriving Repr, DecidableEq

/-- `!item.status || item.status === 'Pending'` from the scan loop. -/
def isPending (i : Item) : Bool :=
  match i.status with
  | none => true
  | some Status.Pending => true
  | some _ => false

/-- The persisted application document (the single `app_data` row).
`activeIndex` is `db_config.active_index`; `none` models an absent
`db_config` object or field. -/
structure AppData where
  schedule : List Item
  recentlyPublished : List Item
  activeIndex : Option Int
deriving Repr, DecidableEq

/-- `const RECENTLY_PUBLISHED_LIMIT = 20;` -/
def RECENTLY_PUBLISHED_LIMIT : Nat := 20

/-- The fallback document `loadData` fabricates when the row is missing or the
read fails (`{ settings: ..., schedule: [], recentlyPublished: [],
db_config: { active_index: 0 } }`). -/
def defaultAppData : AppData :=
  { schedule := [], recentlyPublished := [], activeIndex := some 0 }

/-- One backend's `app_data` row: `none` = no row with `id = 1`. -/
abbrev Store := Option AppData

/-- The failover controller's state: the configured primary pools (each with
its row contents), the optional backup pool, and the in-memory active index.
`activePool` in the source is always assigned together with `activeDbIndex`
as `primaryPools[activeDbIndex]`, so here it is the derived view
`ZedgeWorker.activePool`. -/
structure DbState where
  primaries : List Store
  backup : Option Store
  activeDbIndex : Int
deriving Repr, DecidableEq

/-- JavaScript array indexing `primaryPools[i]`: `undefined` (here `none`) for
a negative or out-of-range index. -/
def getPool (l : List Store) (i : Int) : Option Store :=
  if 0 ≤ i then l.get? i.toNat else none

/-- Writing a pool's row contents back at index `i` (no-op when the pool does
not exist). -/
def setPool (l : List Store) (i : Int) (v : Option Store) : List Store :=
  match v with
  | none => l
  | some st => if 0 ≤ i then l.set i.toNat st else l

/-- `activePool` as maintained by the source (`primaryPools[activeDbIndex]`). -/
def activePool (s : DbState) : Option Store :=
  getPool s.primaries s.activeDbIndex

/-- `loadData()` of part_002 (lines 165–181), through a given pool.  A missing
pool (`none`) makes `activePool.connect()` throw; the `catch` returns the
default document.  A present pool with no row also yields the default. -/
def loadData (pool : Option Store) : AppData :=
  match pool with
  | none => defaultAppData
  | some st =>
    match st with
    | some d => d
    | none => defaultAppData

/-- `saveData(appData)` of part_002 (lines 183–195), through a given pool:
stamps `db_config.active_index` with the in-memory index, then upserts the
row.  A missing pool makes `connect()` throw; the `catch` swallows the error
and nothing is written (the pool contents stay as they were: `none`). -/
def saveData (pool : Option Store) (activeDbIndex : Int) (d : AppData) : Option Store :=
  match pool with
  | none => none
  | some _ => some (some { d with activeIndex := some activeDbIndex })

/-- `reconcileActiveDbIndex()` of part_002 (lines 75–96): when a backup is
configured and its row carries a `db_config.active_index` that is defined,
different from the current index and `< primaryPools.length`, adopt it.
There is no lower-bound check on the index. -/
def reconcileActiveDbIndex (s : DbState) : DbState :=
  match s.backup with
  | none => s
  | some st =>
    match st with
    | none => s
    | some d =>
      match d.activeIndex with
      | none => s
      | some k =>
        if k ≠ s.activeDbIndex ∧ k < (s.primaries.length : Int) then
          { s with activeDbIndex := k }
        else s

/-- Result of `migrateData`: success flag, the migrated document, and the
destination pool's row contents after the call. -/
structure MigrateOut where
  success : Bool
  data : Option AppData
  dest : Option Store
deriving Repr, DecidableEq

/-- `migrateData(sourcePool, destPool)` of part_002 (lines 98–116): read the
source row; with no data, report failure; otherwise upsert into the
destination.  `destFault` models a thrown connect/query on the destination
side (caught internally and reported as `success: false`).  A missing source
or destination pool makes the corresponding `connect()` throw, which the
internal `catch` also converts to a failure. -/
def migrateData (source dest : Option Store) (destFault : Bool) : MigrateOut :=
  match source with
  | none => { success := false, data := none, dest := dest }
  | some st =>
    match st with
    | none => { success := false, data := none, dest := dest }
    | some d =>
      match dest with
      | none => { success := false, data := none, dest := dest }
      | some _ =>
        if destFault then { success := false, data := none, dest := dest }
        else { success := true, data := some d, dest := some (some d) }

/-- The four effectful steps of a cutover, in source order. -/
inductive SwitchStep
  | copyToBackup
  | restoreToNext
  | writeNext
  | writeBackup
deriving Repr, DecidableEq

/-- Injected I/O faults for one `switchDatabase` execution: each flag makes the
corresponding write throw (for the two migrations, inside `migrateData`; for
the two stamped writes, at the `connect`/`UPDATE`, caught by the outer
`catch`). -/
structure SwitchFaults where
  copyToBackupFault : Bool
  restoreFault : Bool
  writeNextFault : Bool
  writeBackupFault : Bool
deriving Repr, DecidableEq

/-- Observable outcome of one `switchDatabase` execution: the database state
afterwards, the returned `success` flag, whether a failure notification was
sent, and the attempted steps in order, each with its success. -/
structure SwitchOut where
  state : DbState
  success : Bool
  failureNotified : Bool
  steps : List (SwitchStep × Bool)
deriving Repr, DecidableEq

/-- `UPDATE app_data SET data = $1 WHERE id = 1`: overwrites the row when it
exists, silently matches zero rows otherwise. -/
def updateRow (st : Store) (d : AppData) : Store :=
  match st with
  | some _ => some d
  | none => none

/-- `UPDATE` of the row of the pool at index `i`. -/
def updatePoolRow (l : List Store) (i : Int) (d : AppData) : List Store :=
  match getPool l i with
  | none => l
  | some st => setPool l i (some (updateRow st d))

/-- `switchDatabase()` of part_002 (lines 118–160).  Guard: a backup and ≥ 2
primaries, else fail with a notification and no state change.  Then:
(1) `migrateData(activePool, backupPool)` — the result is discarded;
(2) `migrateData(backupPool, nextPool)` — failure throws and aborts;
(3) `UPDATE` of the stamped document into the next primary;
(4) `UPDATE` of the stamped document into the backup;
only then flip `activePool`/`activeDbIndex`.  Any throw lands in the `catch`,
which sends a failure notification and leaves the pointer untouched. -/
def switchDatabase (s : DbState) (f : SwitchFaults) : SwitchOut :=
  match s.backup with
  | none => { state := s, success := false, failureNotified := true, steps := [] }
  | some backupSt =>
    if s.primaries.length < 2 then
      { state := s, success := false, failureNotified := true, steps := [] }
    else
      let n : Int := (s.primaries.length : Int)
      let nextDbIndex : Int := Int.tmod (s.activeDbIndex + 1) n
      let m1 := migrateData (activePool s) (some backupSt) f.copyToBackupFault
      let backup1 : Store := m1.dest.getD backupSt
      let m2 := migrateData (some backup1) (getPool s.primaries nextDbIndex) f.restoreFault
      let steps2 := [(SwitchStep.copyToBackup, m1.success), (SwitchStep.restoreToNext, m2.success)]
      match m2.success, m2.data with
      | true, some d =>
        let primaries1 := setPool s.primaries nextDbIndex (some (some d))
        let finalData := { d with activeIndex := some nextDbIndex }
        if f.writeNextFault then
          { state := { s with primaries := primaries1, backup := some backup1 },
            success := false, failureNotified := true,
            steps := steps2 ++ [(SwitchStep.writeNext, false)] }
        else
          let primaries2 := updatePoolRow primaries1 nextDbIndex finalData
          if f.writeBackupFault then
            { state := { s with primaries := primaries2, backup := some backup1 },
              success := false, failureNotified := true,
              steps := steps2 ++ [(SwitchStep.writeNext, true), (SwitchStep.writeBackup, false)] }
          else
            { state := { primaries := primaries2,
                         backup := some (updateRow backup1 finalData),
                         activeDbIndex := nextDbIndex },
              success := true, failureNotified := false,
              steps := steps2 ++ [(SwitchStep.writeNext, true), (SwitchStep.writeBackup, true)] }
      | _, _ =>
        { state := { s with backup := some backup1 },
          success := false, failureNotified := true, steps := steps2 }

/-! ## Scheduling engine, publish queue, missed-item cache

In-memory runtime state of the worker process of part_002.  `store` is the
row of the currently active backend (all `loadData()`/`saveData()` calls of
the scheduling code go through `activePool`); `activeDbIndex` is the value
`saveData` stamps into `db_config.active_index`. -/

structure SchedState where
  store : Store
  activeDbIndex : Int
  publishingInProgress : List String
  publishingQueue : List Item
  isQueueProcessing : Bool
  missedItemsCache : List Item
  missedItemsNotificationSent : Bool
  isWorkerPaused : Bool
deriving Repr, DecidableEq

/-- The document the scheduling code sees from `loadData()` on the active
backend. -/
def activeDoc (st : SchedState) : AppData :=
  loadData (some st.store)

/-- The row contents after `saveData(d)` on the active backend (the upsert
with the stamped `db_config.active_index`). -/
def saveStore (activeDbIndex : Int) (d : AppData) : Store :=
  some { d with activeIndex := some activeDbIndex }

/-- `item.failMessage = "Publication was missed at the scheduled time."` -/
def missedFailMessage : String := "Publication was missed at the scheduled time."

/-- The grace window: `5 * 60 * 1000` ms. -/
def gracePeriodMs : Int := 5 * 60 * 1000

/-- The in-place mutation performed on a newly missed schedule entry. -/
def markMissed (i : Item) : Item :=
  { i with status := some Status.Failed, failMessage := some missedFailMessage }

/-- Accumulator of the `for (const item of schedule)` loop of
`checkScheduleForPublishing` (part_002 lines 568–591): the processed schedule
entries (with in-place mutations applied), `newlyMissedItems`, and the
in-memory `publishingInProgress` / `publishingQueue` / `dataWasChanged`. -/
structure ScanAcc where
  sched : List Item
  newlyMissed : List Item
  inProgress : List String
  queue : List Item
  dataWasChanged : Bool
deriving Repr, DecidableEq

/-- One iteration of the scan loop.  `cache` is `missedItemsCache`, which the
loop only reads (it is appended to after the loop). -/
def scanStep (now : Int) (cache : List Item) (acc : ScanAcc) (item : Item) : ScanAcc :=
  match item.scheduledAtUTC with
  | none => { acc with sched := acc.sched ++ [item] }
  | some t =>
    if isPending item = false then { acc with sched := acc.sched ++ [item] }
    else if now < t then { acc with sched := acc.sched ++ [item] }
    else if t < now - gracePeriodMs then
      if (∀ c ∈ cache, c.id ≠ item.id) ∧ item.id ∉ acc.inProgress then
        { acc with sched := acc.sched ++ [markMissed item],
                   newlyMissed := acc.newlyMissed ++ [markMissed item],
                   dataWasChanged := true }
      else { acc with sched := acc.sched ++ [item] }
    else
      if item.id ∉ acc.inProgress then
        { acc with sched := acc.sched ++ [item],
                   inProgress := acc.inProgress ++ [item.id],
                   queue := acc.queue ++ [item] }
      else { acc with sched := acc.sched ++ [item] }

/-- Outcome of one scan cycle: the state afterwards, whether the missed-items
alert was sent this cycle, and whether the (asynchronous) queue drain was
triggered. -/
structure ScanOut where
  state : SchedState
  alertSent : Bool
  drainStarted : Bool
deriving Repr, DecidableEq

/-- Initial accumulator of the scan loop: empty processed lists, the current
in-memory `publishingInProgress` and `publishingQueue`. -/
def scanAcc0 (st : SchedState) : ScanAcc :=
  { sched := [], newlyMissed := [], inProgress := st.publishingInProgress,
    queue := st.publishingQueue, dataWasChanged := false }

/-- The scan loop of `checkScheduleForPublishing` over the stored schedule. -/
def scanResult (st : SchedState) (now : Int) : ScanAcc :=
  (activeDoc st).schedule.foldl (scanStep now st.missedItemsCache) (scanAcc0 st)

/-- The body of `checkScheduleForPublishing` after its two early returns: run
the loop, persist the mutated document when `dataWasChanged`, append
`newlyMissedItems` to the cache, trigger the (asynchronous) drain when idle
and the queue is non-empty, and send the missed alert when the cache is
non-empty and the debounce flag is unset (which then sets the flag). -/
def runScan (st : SchedState) (now : Int) : ScanOut :=
  let acc := scanResult st now
  let store1 := if acc.dataWasChanged
    then saveStore st.activeDbIndex { activeDoc st with schedule := acc.sched }
    else st.store
  let cache1 := st.missedItemsCache ++ acc.newlyMissed
  let drain : Bool := !st.isQueueProcessing && !acc.queue.isEmpty
  let alert : Bool := !cache1.isEmpty && !st.missedItemsNotificationSent
  let st1 := { st with
    store := store1,
    publishingInProgress := acc.inProgress,
    publishingQueue := acc.queue,
    missedItemsCache := cache1,
    missedItemsNotificationSent := if alert then true else st.missedItemsNotificationSent }
  { state := st1, alertSent := alert, drainStarted := drain }

/-- `checkScheduleForPublishing()` of part_002 (lines 546–611).  The pause
flag short-circuits; an empty schedule returns before the missed-alert block;
otherwise the loop runs (`runScan`). -/
def checkScheduleForPublishing (st : SchedState) (now : Int) : ScanOut :=
  if st.isWorkerPaused then { state := st, alertSent := false, drainStarted := false }
  else
    if (activeDoc st).schedule.isEmpty then
      { state := st, alertSent := false, drainStarted := false }
    else runScan st now

/-- Result of one publish attempt as reported by `performPublish` (which
catches every internal error and reports it as `failed`). -/
inductive PubResult
  | success
  | failed (msg : String)
deriving Repr, DecidableEq

/-- What one run of `executePublishWorkflow(item)` does, seen from the drain
loop: either it completes with a `performPublish` result, or it throws —
`performPublish` can reject out of its `finally` (the browser-context
cleanup) before any document mutation, and the loop's `catch` swallows the
exception.  `thrown` therefore aborts the workflow before the status
update. -/
inductive POutcome
  | completes (r : PubResult)
  | thrown
deriving Repr, DecidableEq

/-- `schedule.findIndex(i => i.id === id)` followed by reading the entry. -/
def findFirstById : List Item → String → Option Item
  | [], _ => none
  | e :: rest, x => if e.id = x then some e else findFirstById rest x

/-- `schedule.splice(itemIndex, 1)`: drop the first entry with the id. -/
def removeFirstById : List Item → String → List Item
  | [], _ => []
  | e :: rest, x => if e.id = x then rest else e :: removeFirstById rest x

/-- In-place mutation of the first entry with the id (`schedule[itemIndex].…`). -/
def updateFirstById : List Item → String → (Item → Item) → List Item
  | [], _, _ => []
  | e :: rest, x, f => if e.id = x then f e :: rest else e :: updateFirstById rest x f

/-- `executePublishWorkflow(scheduledItem)` of part_002 (lines 629–654) after
`performPublish` returned `result`: reload the document; if the item is still
in the schedule, on success splice it out, stamp it Published and unshift it
into `recentlyPublished` capped at `RECENTLY_PUBLISHED_LIMIT`; on failure set
its status to Failed with the message; then persist. -/
def executePublishWorkflow (st : SchedState) (now : Int) (scheduledItem : Item)
    (result : PubResult) : SchedState :=
  let appData := activeDoc st
  match findFirstById appData.schedule scheduledItem.id with
  | none => st
  | some entry =>
    match result with
    | PubResult.success =>
      let published := { entry with
        status := some Status.Published, publishedAtUTC := some now }
      let d1 := { appData with
        schedule := removeFirstById appData.schedule scheduledItem.id,
        recentlyPublished :=
          (published :: appData.recentlyPublished).take RECENTLY_PUBLISHED_LIMIT }
      { st with store := saveStore st.activeDbIndex d1 }
    | PubResult.failed msg =>
      let d1 := { appData with
        schedule := updateFirstById appData.schedule scheduledItem.id
          (fun e => { e with status := some Status.Failed, failMessage := some msg }) }
      { st with store := saveStore st.activeDbIndex d1 }

/-- The `while (publishingQueue.length > 0)` loop of `processPublishingQueue`
(part_002 lines 616–625), over the successive queue contents: shift the head,
run the workflow inside `try`/`catch` (a throw is logged and skipped), and in
`finally` delete the id from `publishingInProgress`.  The loop body never
pushes to the queue, so iterating over the initial queue list is exact.
Returns the final state and the items for which the workflow was invoked. -/
def drainLoop (now : Int) (oracle : Item → POutcome) :
    SchedState → List Item → SchedState × List Item
  | st, [] => (st, [])
  | st, itemToPublish :: rest =>
    let st1 := { st with publishingQueue := rest }
    let st2 :=
      match oracle itemToPublish with
      | POutcome.thrown => st1
      | POutcome.completes r => executePublishWorkflow st1 now itemToPublish r
    let st3 := { st2 with
      publishingInProgress := st2.publishingInProgress.filter (fun x => x ≠ itemToPublish.id) }
    let r := drainLoop now oracle st3 rest
    (r.1, itemToPublish :: r.2)

/-- `processPublishingQueue()` of part_002 (lines 613–627): re-entrancy guard
on `isQueueProcessing`/empty queue, then the drain loop, then reset the
flag. -/
def processPublishingQueue (st : SchedState) (now : Int) (oracle : Item → POutcome) :
    SchedState × List Item :=
  if st.isQueueProcessing ∨ st.publishingQueue = [] then (st, [])
  else
    let r := drainLoop now oracle { st with isQueueProcessing := true } st.publishingQueue
    ({ r.1 with isQueueProcessing := false }, r.2)

/-- Result of a manual command: the state afterwards, the
`{ success, message }` result, and whether it triggered the queue drain. -/
structure CmdOut where
  state : SchedState
  success : Bool
  message : String
  drainStarted : Bool
deriving Repr, DecidableEq

/-- `s.toLowerCase()` (ASCII case folding, which covers the source's
title/identifier comparisons), implemented over the character list so that it
reduces in the kernel. -/
def strToLower (s : String) : String := String.mk (s.data.map Char.toLower)

/-- `publishNowByIds(itemIds)` of part_002 (lines 473–480): filter the stored
schedule by the ids, push the matches onto the queue, trigger the drain if
idle.  The ids are never added to `publishingInProgress`. -/
def publishNowByIds (st : SchedState) (itemIds : List String) : CmdOut :=
  let appData := activeDoc st
  let itemsToPublish := appData.schedule.filter (fun i => decide (i.id ∈ itemIds))
  if itemsToPublish.isEmpty then
    { state := st, success := false, message := "No valid items found to publish.",
      drainStarted := false }
  else
    { state := { st with publishingQueue := st.publishingQueue ++ itemsToPublish },
      success := true, message := "Queued item(s) for immediate publishing.",
      drainStarted := !st.isQueueProcessing }

/-- `publishMissedItems(identifier)` of part_002 (lines 510–531):
`"all-missed"` moves the whole cache into the queue (emptying the cache
first); otherwise a case-insensitive title match moves one item.  The ids are
never added to `publishingInProgress`, and the debounce flag is not touched. -/
def publishMissedItems (st : SchedState) (identifier : String) : CmdOut :=
  if identifier = "all-missed" then
    let items := st.missedItemsCache
    let st1 := { st with missedItemsCache := [] }
    if items.isEmpty then
      { state := st1, success := false, message := "No items to publish.",
        drainStarted := false }
    else
      { state := { st1 with publishingQueue := st1.publishingQueue ++ items },
        success := true, message := "Queued item(s) for publishing.",
        drainStarted := !st.isQueueProcessing }
  else
    match st.missedItemsCache.find? (fun i => strToLower i.title == strToLower identifier) with
    | none =>
      { state := st, success := false,
        message := "Could not find the item in the missed items list.",
        drainStarted := false }
    | some item =>
      { state := { st with
          missedItemsCache :=
            st.missedItemsCache.eraseP (fun i => strToLower i.title == strToLower identifier),
          publishingQueue := st.publishingQueue ++ [item] },
        success := true, message := "Queued item(s) for publishing.",
        drainStarted := !st.isQueueProcessing }

/-- `clearMissedItemsCache()` of part_002 (line 656). -/
def clearMissedItemsCache (st : SchedState) : SchedState :=
  { st with missedItemsCache := [], missedItemsNotificationSent := false }

/-! ## Time-offset parsing (`parseInt` + unit character) -/

/-- The leading decimal digits of a character list. -/
def leadingDigits (cs : List Char) : List Char :=
  cs.takeWhile Char.isDigit

/-- Value of a digit list. -/
def digitsToNat (ds : List Char) : Nat :=
  ds.foldl (fun n c => 10 * n + (c.toNat - 48)) 0

/-- `parseInt(s, 10)`: after optional leading spaces, an optional sign and
leading decimal digits; `NaN` (here `none`) when no digit follows. -/
def parseIntJS (s : String) : Option Int :=
  let cs := s.data.dropWhile (fun c => c = ' ')
  match cs with
  | '-' :: rest =>
    let ds := leadingDigits rest
    if ds.isEmpty then none else some (-(digitsToNat ds : Int))
  | '+' :: rest =>
    let ds := leadingDigits rest
    if ds.isEmpty then none else some ((digitsToNat ds : Int))
  | _ =>
    let ds := leadingDigits cs
    if ds.isEmpty then none else some ((digitsToNat ds : Int))

/-- `timeString.slice(0, -1)`: everything but the last character. -/
def sliceDropLast (s : String) : String :=
  String.mk s.data.dropLast

/-- `timeString.slice(-1).toLowerCase()`: the last character, lowercased
(`none` for the empty string). -/
def lastCharLower (s : String) : Option Char :=
  s.data.getLast?.map Char.toLower

/-- `rescheduleItemsByIds(itemIds, timeString)` of part_002 (lines 482–508):
parse the numeric part (`NaN` rejects), pick the unit — `'m'` minutes, `'h'`
hours, anything else (including unknown unit characters) falls through to
seconds — then set `scheduledAtUTC = now + offset` and `status = 'Pending'`
on every matching schedule entry and persist if anything matched. -/
def rescheduleItemsByIds (st : SchedState) (itemIds : List String) (timeString : String)
    (now : Int) : CmdOut :=
  let appData := activeDoc st
  match parseIntJS (sliceDropLast timeString) with
  | none =>
    { state := st, success := false, message := "Invalid time value.", drainStarted := false }
  | some v =>
    let unit := lastCharLower timeString
    let offsetMs : Int :=
      if unit = some 'm' then v * 60 * 1000
      else if unit = some 'h' then v * 60 * 60 * 1000
      else v * 1000
    let newTime := now + offsetMs
    let sched1 := appData.schedule.map (fun item =>
      if item.id ∈ itemIds then
        { item with scheduledAtUTC := some newTime, status := some Status.Pending }
      else item)
    let updatedCount := appData.schedule.countP (fun item => decide (item.id ∈ itemIds))
    if 0 < updatedCount then
      { state := { st with store := saveStore st.activeDbIndex { appData with schedule := sched1 } },
        success := true, message := "Rescheduled item(s).", drainStarted := false }
    else
      { state := st, success := false, message := "No items were found to reschedule.",
        drainStarted := false }

/-- `rescheduleMissedItem(identifier, timeString)` of part_002 (lines
533–543): case-insensitive title lookup in the cache, delegate to
`rescheduleItemsByIds`, and on success drop the item from the cache, clearing
the debounce flag if the cache became empty. -/
def rescheduleMissedItem (st : SchedState) (identifier : String) (timeString : String)
    (now : Int) : CmdOut :=
  match st.missedItemsCache.find? (fun i => strToLower i.title == strToLower identifier) with
  | none =>
    { state := st, success := false,
      message := "Could not find the item in the missed items list.",
      drainStarted := false }
  | some item =>
    let r := rescheduleItemsByIds st [item.id] timeString now
    if r.success then
      let cache1 := r.state.missedItemsCache.filter (fun i => i.id ≠ item.id)
      { r with state := { r.state with
          missedItemsCache := cache1,
          missedItemsNotificationSent :=
            if cache1.isEmpty then false else r.state.missedItemsNotificationSent } }
    else r

end ZedgeWorker

namespace WorkerJs

open ZedgeWorker

/-- `rescheduleMissedItem(identifier, timeString)` of src/worker.js (lines
144–206), the sibling variant: same numeric-part check, but the unit
character is validated — anything outside `s`/`m`/`h` is rejected with no
mutation.  `identifier = "all"` reschedules the whole cache; otherwise a
case-insensitive title match.  (The `!appData.schedule` guard of the source
cannot fire here: `loadData` always yields a document with a schedule
list.) -/
def rescheduleMissedItem (st : SchedState) (identifier : String) (timeString : String)
    (now : Int) : CmdOut :=
  let appData := activeDoc st
  match parseIntJS (sliceDropLast timeString) with
  | none =>
    { state := st, success := false,
      message := "Invalid time value. Please use a format like 10m, 1h, or 30s.",
      drainStarted := false }
  | some v =>
    let unit := lastCharLower timeString
    if unit = some 's' ∨ unit = some 'm' ∨ unit = some 'h' then
      let offsetMs : Int :=
        if unit = some 's' then v * 1000
        else if unit = some 'm' then v * 60 * 1000
        else v * 60 * 60 * 1000
      let newTime := now + offsetMs
      let proceed : List Item → CmdOut := fun items =>
        let sched1 := items.foldl
          (fun sch u => updateFirstById sch u.id
            (fun e => { e with scheduledAtUTC := some newTime, status := some Status.Pending }))
          appData.schedule
        let cache1 :=
          if strToLower identifier == "all" then ([] : List Item)
          else st.missedItemsCache.filter (fun i => items.all (fun u => u.id ≠ i.id))
        { state := { st with
            store := saveStore st.activeDbIndex { appData with schedule := sched1 },
            missedItemsCache := cache1,
            missedItemsNotificationSent :=
              if cache1.isEmpty then false else st.missedItemsNotificationSent },
          success := true, message := "Successfully rescheduled item(s).",
          drainStarted := false }
      if strToLower identifier == "all" then
        if st.missedItemsCache.isEmpty then
          { state := st, success := false, message := "No items to reschedule.",
            drainStarted := false }
        else proceed st.missedItemsCache
      else
        match st.missedItemsCache.find? (fun i => strToLower i.title == strToLower identifier) with
        | none =>
          { state := st, success := false,
            message := "Could not find the item in the missed items list.",
            drainStarted := false }
        | some item => proceed [item]
    else
      { state := st, success := false,
        message := "Invalid time unit. Please use s (seconds), m (minutes), or h (hours).",
        drainStarted := false }

end WorkerJs

/-! ## Fixtures for concrete executions -/

namespace ZedgeWorker

/-- An empty persisted document. -/
def emptyDoc : AppData := { schedule := [], recentlyPublished := [], activeIndex := some 0 }

/-- Two primaries (the first holding a document), a backup holding a document,
active index 0. -/
def twoPrimariesState : DbState :=
  { primaries := [some emptyDoc, none], backup := some (some emptyDoc), activeDbIndex := 0 }

/-- Fault injection: only the copy of the active document to the backup
(step 1) fails. -/
def copyFaultOnly : SwitchFaults :=
  { copyToBackupFault := true, restoreFault := false,
    writeNextFault := false, writeBackupFault := false }

/-- Fault injection: only the restore into the next primary (step 2) fails. -/
def restoreFaultOnly : SwitchFaults :=
  { copyToBackupFault := false, restoreFault := true,
    writeNextFault := false, writeBackupFault := false }

/-- Fault injection: only the final stamped write to the backup (step 4)
fails — the write to the new primary has already succeeded. -/
def backupWriteFaultOnly : SwitchFaults :=
  { copyToBackupFault := false, restoreFault := false,
    writeNextFault := false, writeBackupFault := true }

/-! ## Helper lemmas -/

theorem getPool_setPool_ne (l : List Store) (i j : Int) (v : Option Store) (hij : i ≠ j) :
    getPool (setPool l j v) i = getPool l i := by
  unfold setPool getPool
  match v with
  | none => rfl
  | some st =>
    by_cases hj : 0 ≤ j
    · simp only [if_pos hj]
      by_cases hi : 0 ≤ i
      · simp only [if_pos hi]
        have : j.toNat ≠ i.toNat := by omega
        exact List.get?_set_ne st l this
      · simp only [if_neg hi]
    · simp only [if_neg hj]

theorem getPool_updatePoolRow_ne (l : List Store) (i j : Int) (d : AppData) (hij : i ≠ j) :
    getPool (updatePoolRow l j d) i = getPool l i := by
  unfold updatePoolRow
  match h : getPool l j with
  | none => rfl
  | some st => exact getPool_setPool_ne l i j _ hij

theorem tmod_next_lemma (a n : Int) (h0 : 0 ≤ a) (ha : a < n) (h2 : 2 ≤ n) :
    Int.tmod (a + 1) n ≠ a ∧ 0 ≤ Int.tmod (a + 1) n ∧ Int.tmod (a + 1) n < n := by
  have he : Int.tmod (a + 1) n = (a + 1) % n := Int.tmod_eq_emod (by omega) (by omega)
  by_cases hn : a + 1 = n
  · have : (a + 1) % n = 0 := by rw [hn]; exact Int.emod_self
    rw [he, this]
    omega
  · have : (a + 1) % n = a + 1 := Int.emod_eq_of_lt (by omega) (by omega)
    rw [he, this]
    omega

end ZedgeWorker

/-! ## Claims C1 and C2: cutover atomicity and step sequencing -/

namespace ZedgeWorker

/-- C1 counterexample: an execution of `switchDatabase` in which a step after
the initial checks fails — the copy of the active document to the backup
(step 1) reports failure, visible as `(copyToBackup, false)` in the step
trace — and yet the cutover completes: the returned result is success and the
in-memory active pointer flips from 0 to 1, because part_002 discards the
result of the first `migrateData` call. -/
theorem switchDatabase_first_step_failure_still_flips_pointer :
    twoPrimariesState.activeDbIndex = 0 ∧
    (SwitchStep.copyToBackup, false) ∈ (switchDatabase twoPrimariesState copyFaultOnly).steps ∧
    (switchDatabase twoPrimariesState copyFaultOnly).success = true ∧
    (switchDatabase twoPrimariesState copyFaultOnly).state.activeDbIndex = 1 := by
  decide

/-- C1 (amended): for every execution of `switchDatabase` with a backup and at
least two primaries in which a step after the first fails — the restore into
the next primary, the stamped write to the new primary, or the stamped write
to the backup — the cutover reports failure, the in-memory active pointer
(`activeDbIndex`, and with it `activePool`) is unchanged, and a failure
notification is surfaced.  (A failure of the first step alone does not abort
the cutover, see the counterexample.) -/
theorem switchDatabase_late_step_failure_preserves_pointer
    (s : DbState) (f : SwitchFaults) (b : Store)
    (hb : s.backup = some b) (hn : 2 ≤ s.primaries.length)
    (hlo : 0 ≤ s.activeDbIndex) (hhi : s.activeDbIndex < (s.primaries.length : Int)) :
    ((SwitchStep.restoreToNext, false) ∈ (switchDatabase s f).steps ∨
     (SwitchStep.writeNext, false) ∈ (switchDatabase s f).steps ∨
     (SwitchStep.writeBackup, false) ∈ (switchDatabase s f).steps) →
    (switchDatabase s f).success = false ∧
    (switchDatabase s f).state.activeDbIndex = s.activeDbIndex ∧
    (switchDatabase s f).failureNotified = true ∧
    activePool (switchDatabase s f).state = activePool s := by
  have hnext := tmod_next_lemma s.activeDbIndex (s.primaries.length : Int) hlo hhi
    (by exact_mod_cast hn)
  have hne : s.activeDbIndex ≠ Int.tmod (s.activeDbIndex + 1) (s.primaries.length : Int) :=
    fun h => hnext.1 h.symm
  simp only [switchDatabase, hb]
  rw [if_neg (show ¬ s.primaries.length < 2 by omega)]
  split
  · -- restore succeeded (`true, some d` branch)
    split_ifs with h3 h4
    · -- write to the next primary faults
      intro _
      dsimp only [activePool]
      refine ⟨rfl, rfl, rfl, ?_⟩
      exact getPool_setPool_ne _ _ _ _ hne
    · -- write to the backup faults
      intro _
      dsimp only [activePool]
      refine ⟨rfl, rfl, rfl, ?_⟩
      rw [getPool_updatePoolRow_ne _ _ _ _ hne]
      exact getPool_setPool_ne _ _ _ _ hne
    · -- every write succeeded: no failing late step exists
      intro hfail
      exfalso
      simp only [List.mem_append, List.mem_cons, List.mem_singleton,
        List.not_mem_nil, Prod.mk.injEq] at hfail
      rcases hfail with h | h | h <;> simp_all
  · -- restore failed: abort branch
    intro _
    dsimp only [activePool]
    exact ⟨rfl, rfl, rfl, rfl⟩

/-- Witness for `switchDatabase_late_step_failure_preserves_pointer`: the
write to the new primary succeeds but the stamped write to the backup fails;
the pointer stays at 0. -/
theorem switchDatabase_late_step_failure_preserves_pointer_witness :
    (switchDatabase twoPrimariesState backupWriteFaultOnly).success = false ∧
    (switchDatabase twoPrimariesState backupWriteFaultOnly).state.activeDbIndex =
      twoPrimariesState.activeDbIndex ∧
    (switchDatabase twoPrimariesState backupWriteFaultOnly).failureNotified = true ∧
    activePool (switchDatabase twoPrimariesState backupWriteFaultOnly).state =
      activePool twoPrimariesState :=
  switchDatabase_late_step_failure_preserves_pointer twoPrimariesState backupWriteFaultOnly
    (some emptyDoc) (by decide) (by decide) (by decide) (by decide) (by decide)
/-- C2 counterexample: an execution of `switchDatabase` in which the first
step (copying the current active document to the backup) fails —
`(copyToBackup, false)` in the step trace — yet the cutover does not abort:
the subsequent restore step is performed (and here the whole cutover even
completes). -/
theorem switchDatabase_first_step_failure_does_not_abort :
    (SwitchStep.copyToBackup, false) ∈ (switchDatabase twoPrimariesState copyFaultOnly).steps ∧
    SwitchStep.restoreToNext ∈ ((switchDatabase twoPrimariesState copyFaultOnly).steps.map Prod.fst) ∧
    SwitchStep.writeNext ∈ ((switchDatabase twoPrimariesState copyFaultOnly).steps.map Prod.fst) ∧
    (switchDatabase twoPrimariesState copyFaultOnly).success = true := by
  decide

/-- C2 (amended): step sequencing of `switchDatabase` from the second step on.
A failure of the first step (copy to backup) does not abort the cutover; but
if the restore into the next primary fails, neither stamped write is
attempted and the cutover aborts with the pointer unchanged; if the stamped
write to the new primary fails, the stamped write to the backup is not
attempted and the pointer is unchanged; and in every execution the prior
active primary's row is never written. -/
theorem switchDatabase_step_sequencing
    (s : DbState) (f : SwitchFaults) (b : Store)
    (hb : s.backup = some b) (hn : 2 ≤ s.primaries.length)
    (hlo : 0 ≤ s.activeDbIndex) (hhi : s.activeDbIndex < (s.primaries.length : Int)) :
    ((SwitchStep.restoreToNext, false) ∈ (switchDatabase s f).steps →
      SwitchStep.writeNext ∉ ((switchDatabase s f).steps.map Prod.fst) ∧
      SwitchStep.writeBackup ∉ ((switchDatabase s f).steps.map Prod.fst) ∧
      (switchDatabase s f).success = false ∧
      (switchDatabase s f).state.activeDbIndex = s.activeDbIndex) ∧
    ((SwitchStep.writeNext, false) ∈ (switchDatabase s f).steps →
      SwitchStep.writeBackup ∉ ((switchDatabase s f).steps.map Prod.fst) ∧
      (switchDatabase s f).success = false ∧
      (switchDatabase s f).state.activeDbIndex = s.activeDbIndex) ∧
    getPool (switchDatabase s f).state.primaries s.activeDbIndex =
      getPool s.primaries s.activeDbIndex := by
  have hnext := tmod_next_lemma s.activeDbIndex (s.primaries.length : Int) hlo hhi
    (by exact_mod_cast hn)
  have hne : s.activeDbIndex ≠ Int.tmod (s.activeDbIndex + 1) (s.primaries.length : Int) :=
    fun h => hnext.1 h.symm
  simp only [switchDatabase, hb]
  rw [if_neg (show ¬ s.primaries.length < 2 by omega)]
  split
  · -- restore succeeded (`true, some d` branch)
    split_ifs with h3 h4
    · -- write to the next primary faults: steps end at `(writeNext, false)`
      dsimp only
      refine ⟨?_, ?_, ?_⟩
      · intro hmem
        exfalso
        simp only [List.mem_append, List.mem_cons, List.mem_singleton,
          List.not_mem_nil, Prod.mk.injEq] at hmem
        simp_all
      · intro _
        refine ⟨?_, rfl, rfl⟩
        simp [List.mem_append, List.mem_cons]
      · exact getPool_setPool_ne _ _ _ _ hne
    · -- write to the backup faults
      dsimp only
      refine ⟨?_, ?_, ?_⟩
      · intro hmem
        exfalso
        simp only [List.mem_append, List.mem_cons, List.mem_singleton,
          List.not_mem_nil, Prod.mk.injEq] at hmem
        simp_all
      · intro hmem
        exfalso
        simp only [List.mem_append, List.mem_cons, List.mem_singleton,
          List.not_mem_nil, Prod.mk.injEq] at hmem
        simp_all
      · rw [getPool_updatePoolRow_ne _ _ _ _ hne]
        exact getPool_setPool_ne _ _ _ _ hne
    · -- every write succeeded
      dsimp only
      refine ⟨?_, ?_, ?_⟩
      · intro hmem
        exfalso
        simp only [List.mem_append, List.mem_cons, List.mem_singleton,
          List.not_mem_nil, Prod.mk.injEq] at hmem
        simp_all
      · intro hmem
        exfalso
        simp only [List.mem_append, List.mem_cons, List.mem_singleton,
          List.not_mem_nil, Prod.mk.injEq] at hmem
        simp_all
      · rw [getPool_updatePoolRow_ne _ _ _ _ hne]
        exact getPool_setPool_ne _ _ _ _ hne
  · -- restore failed: only the two migrate steps were attempted
    dsimp only
    refine ⟨?_, ?_, rfl⟩
    · intro _
      refine ⟨?_, ?_, rfl, rfl⟩ <;> simp
    · intro hmem
      exfalso
      simp only [List.mem_cons, List.not_mem_nil, Prod.mk.injEq] at hmem
      simp_all

/-- Witness for `switchDatabase_step_sequencing`: with the restore step
failing, no stamped write is attempted and the pointer stays at 0. -/
theorem switchDatabase_step_sequencing_witness :
    SwitchStep.writeNext ∉
      ((switchDatabase twoPrimariesState restoreFaultOnly).steps.map Prod.fst) ∧
    (switchDatabase twoPrimariesState restoreFaultOnly).success = false ∧
    (switchDatabase twoPrimariesState restoreFaultOnly).state.activeDbIndex =
      twoPrimariesState.activeDbIndex :=
  have h := switchDatabase_step_sequencing twoPrimariesState restoreFaultOnly
    (some emptyDoc) (by decide) (by decide) (by decide) (by decide)
  have h1 := h.1 (by decide)
  ⟨h1.1, h1.2.2.1, h1.2.2.2⟩

end ZedgeWorker

/-! ## Claims C3 and C9: reconciliation on restart -/

namespace ZedgeWorker

/-- A backup document carrying `db_config.active_index = -1`. -/
def negIndexDoc : AppData := { schedule := [], recentlyPublished := [], activeIndex := some (-1) }

/-- One primary, a backup whose document carries `active_index = -1`, default
active index 0. -/
def negBackupState : DbState :=
  { primaries := [some emptyDoc], backup := some (some negIndexDoc), activeDbIndex := 0 }

/-- C3 counterexample: a startup state whose backup document holds
`db_config.active_index = -1`, which is not a valid primary index (the
primary lookup at -1 is undefined); the claim requires the active index to
stay 0, but `reconcileActiveDbIndex` adopts -1, because the code checks only
the upper bound `backupIndex < primaryPools.length`. -/
theorem reconcileActiveDbIndex_adopts_invalid_negative_index :
    negBackupState.activeDbIndex = 0 ∧
    negBackupState.backup = some (some negIndexDoc) ∧
    negIndexDoc.activeIndex = some (-1) ∧
    getPool negBackupState.primaries (-1) = none ∧
    (reconcileActiveDbIndex negBackupState).activeDbIndex = -1 := by
  decide

/-- C3 (amended): after `reconcileActiveDbIndex`, when the backup's document
holds a defined `db_config.active_index = k` different from the current index
with `0 ≤ k < number of primaries`, the process's active index equals `k` and
the active pool is the `k`-th primary; if `k` is absent, equal to the current
index, or `≥ the number of primaries`, the state is unchanged.  (The code has
no lower-bound check, so a negative `k` is adopted rather than ignored — see
the counterexample and C9.) -/
theorem reconcileActiveDbIndex_spec (s : DbState) (d : AppData) (k : Int)
    (hb : s.backup = some (some d)) :
    (d.activeIndex = some k → k ≠ s.activeDbIndex → 0 ≤ k →
      k < (s.primaries.length : Int) →
      (reconcileActiveDbIndex s).activeDbIndex = k ∧
      activePool (reconcileActiveDbIndex s) = s.primaries.get? k.toNat) ∧
    (d.activeIndex = none → reconcileActiveDbIndex s = s) ∧
    (d.activeIndex = some s.activeDbIndex → reconcileActiveDbIndex s = s) ∧
    (d.activeIndex = some k → (s.primaries.length : Int) ≤ k →
      reconcileActiveDbIndex s = s) := by
  refine ⟨?_, ?_, ?_, ?_⟩
  · intro hk hne hlo hhi
    simp only [reconcileActiveDbIndex, hb, hk]
    rw [if_pos ⟨hne, hhi⟩]
    constructor
    · rfl
    · simp only [activePool, getPool]
      rw [if_pos hlo]
  · intro hk
    simp only [reconcileActiveDbIndex, hb, hk]
  · intro hk
    simp only [reconcileActiveDbIndex, hb, hk]
    rw [if_neg]
    simp
  · intro hk hge
    simp only [reconcileActiveDbIndex, hb, hk]
    rw [if_neg]
    intro hcontra
    exact absurd hcontra.2 (by omega)

/-- Witness for `reconcileActiveDbIndex_spec`: three primaries, backup
document holding index 2, fresh process at index 0 — reconciliation adopts 2
and the active pool becomes the third primary. -/
theorem reconcileActiveDbIndex_spec_witness :
    (reconcileActiveDbIndex
      { primaries := [some emptyDoc, none, some emptyDoc],
        backup := some (some { schedule := [], recentlyPublished := [], activeIndex := some 2 }),
        activeDbIndex := 0 }).activeDbIndex = 2 ∧
    activePool (reconcileActiveDbIndex
      { primaries := [some emptyDoc, none, some emptyDoc],
        backup := some (some { schedule := [], recentlyPublished := [], activeIndex := some 2 }),
        activeDbIndex := 0 }) = some (some emptyDoc) :=
  have h := (reconcileActiveDbIndex_spec
    { primaries := [some emptyDoc, none, some emptyDoc],
      backup := some (some { schedule := [], recentlyPublished := [], activeIndex := some 2 }),
      activeDbIndex := 0 }
    { schedule := [], recentlyPublished := [], activeIndex := some 2 } 2 rfl).1
    rfl (by decide) (by decide) (by decide)
  ⟨h.1, h.2⟩

/-- C9: `reconcileActiveDbIndex` validates the backup's index only as defined,
different from the current index, and `< primaryPools.length`; a negative
integer passes all three checks, so reconciliation adopts it, the active-pool
lookup `primaryPools[k]` is undefined (`none`), and from then on every
`loadData` through the active pool fails over to the fabricated default
document while every `saveData` writes nothing. -/
theorem reconcileActiveDbIndex_negative_breaks_pool (s : DbState) (d : AppData) (k : Int)
    (hb : s.backup = some (some d)) (hk : d.activeIndex = some k) (hneg : k < 0)
    (hcur : 0 ≤ s.activeDbIndex) :
    (reconcileActiveDbIndex s).activeDbIndex = k ∧
    activePool (reconcileActiveDbIndex s) = none ∧
    loadData (activePool (reconcileActiveDbIndex s)) = defaultAppData ∧
    (∀ (d2 : AppData) (i : Int), saveData (activePool (reconcileActiveDbIndex s)) i d2 = none) := by
  have hlen : (0 : Int) ≤ (s.primaries.length : Int) := by positivity
  have hidx : (reconcileActiveDbIndex s).activeDbIndex = k := by
    simp only [reconcileActiveDbIndex, hb, hk]
    rw [if_pos ⟨by omega, by omega⟩]
  have hpool : activePool (reconcileActiveDbIndex s) = none := by
    have hsame : (reconcileActiveDbIndex s).primaries = s.primaries := by
      simp only [reconcileActiveDbIndex, hb, hk]
      rw [if_pos ⟨by omega, by omega⟩]
    simp only [activePool, hidx, hsame, getPool]
    rw [if_neg (by omega)]
  refine ⟨hidx, hpool, ?_, ?_⟩
  · rw [hpool]; rfl
  · intro d2 i; rw [hpool]; rfl

/-- Witness for `reconcileActiveDbIndex_negative_breaks_pool` at
`active_index = -1`. -/
theorem reconcileActiveDbIndex_negative_breaks_pool_witness :
    (reconcileActiveDbIndex negBackupState).activeDbIndex = -1 ∧
    activePool (reconcileActiveDbIndex negBackupState) = none ∧
    loadData (activePool (reconcileActiveDbIndex negBackupState)) = defaultAppData ∧
    (∀ (d2 : AppData) (i : Int),
      saveData (activePool (reconcileActiveDbIndex negBackupState)) i d2 = none) :=
  reconcileActiveDbIndex_negative_breaks_pool negBackupState negIndexDoc (-1)
    (by decide) (by decide) (by decide) (by decide)

end ZedgeWorker

/-! ## Claim C6: bounded recently-published history -/

namespace ZedgeWorker

/-- A pending schedule item with a numeric id, for sequential-publish runs. -/
def mkItem (i : Nat) : Item :=
  { id := Nat.repr i, title := Nat.repr i, theme := "", scheduledAtUTC := some 0,
    status := some Status.Pending, failMessage := none, publishedAtUTC := none }

/-- 25 pending items. -/
def seqItems : List Item := (List.range 25).map mkItem

/-- A worker state with the 25 items scheduled and queued, ready for one drain
run. -/
def seqStartState : SchedState :=
  { store := some { schedule := seqItems, recentlyPublished := [], activeIndex := some 0 },
    activeDbIndex := 0,
    publishingInProgress := seqItems.map Item.id,
    publishingQueue := seqItems,
    isQueueProcessing := false,
    missedItemsCache := [], missedItemsNotificationSent := false, isWorkerPaused := false }

/-- `mkItem i` as it appears in the history after publishing at time `now`. -/
def pubOf (now : Int) (i : Nat) : Item :=
  { mkItem i with status := some Status.Published, publishedAtUTC := some now }

/-- C6: every successful publish removes the item's entry from the schedule
and inserts the Published copy at the front of `recentlyPublished`, which is
capped at `RECENTLY_PUBLISHED_LIMIT = 20` entries; and draining 25 pending
items sequentially (all succeeding) leaves exactly the 20 newest items,
newest first, with the oldest 5 evicted and the schedule empty. -/
theorem recentlyPublished_bound (st : SchedState) (now : Int) (item entry : Item)
    (hp : findFirstById (activeDoc st).schedule item.id = some entry) :
    ((activeDoc (executePublishWorkflow st now item PubResult.success)).schedule
        = removeFirstById (activeDoc st).schedule item.id ∧
      (activeDoc (executePublishWorkflow st now item PubResult.success)).recentlyPublished
        = ({ entry with status := some Status.Published, publishedAtUTC := some now }
            :: (activeDoc st).recentlyPublished).take RECENTLY_PUBLISHED_LIMIT ∧
      (activeDoc (executePublishWorkflow st now item PubResult.success)).recentlyPublished.length
        ≤ RECENTLY_PUBLISHED_LIMIT) ∧
    ((activeDoc (processPublishingQueue seqStartState 99
          (fun _ => POutcome.completes PubResult.success)).1).recentlyPublished
        = (((List.range 25).map (pubOf 99)).reverse).take 20 ∧
      (activeDoc (processPublishingQueue seqStartState 99
          (fun _ => POutcome.completes PubResult.success)).1).recentlyPublished.length = 20 ∧
      (activeDoc (processPublishingQueue seqStartState 99
          (fun _ => POutcome.completes PubResult.success)).1).schedule = []) := by
  constructor
  · simp only [executePublishWorkflow, hp]
    simp only [activeDoc, loadData, saveStore]
    refine ⟨trivial, trivial, ?_⟩
    exact List.length_take_le _ _
  · exact ⟨by decide, by decide, by decide⟩

/-- Witness for `recentlyPublished_bound`: publishing the single scheduled
item of a one-item state moves it into the history. -/
theorem recentlyPublished_bound_witness :
    (activeDoc (executePublishWorkflow
        { store := some { schedule := [mkItem 0], recentlyPublished := [], activeIndex := some 0 },
          activeDbIndex := 0, publishingInProgress := [], publishingQueue := [],
          isQueueProcessing := false, missedItemsCache := [],
          missedItemsNotificationSent := false, isWorkerPaused := false }
        7 (mkItem 0) PubResult.success)).recentlyPublished
      = ({ mkItem 0 with status := some Status.Published, publishedAtUTC := some 7 }
          :: ([] : List Item)).take RECENTLY_PUBLISHED_LIMIT :=
  ((recentlyPublished_bound
    { store := some { schedule := [mkItem 0], recentlyPublished := [], activeIndex := some 0 },
      activeDbIndex := 0, publishingInProgress := [], publishingQueue := [],
      isQueueProcessing := false, missedItemsCache := [],
      missedItemsNotificationSent := false, isWorkerPaused := false }
    7 (mkItem 0) (mkItem 0) (by decide)).1).2.1

end ZedgeWorker

/-! ## Claim C7: reschedule input validation -/

namespace ZedgeWorker

/-- The missed item "Sunset", as it sits in the schedule (already marked
Failed by the scan) and in the missed cache. -/
def sunsetItem : Item :=
  { id := "a1", title := "Sunset", theme := "", scheduledAtUTC := some 0,
    status := some Status.Failed, failMessage := some missedFailMessage,
    publishedAtUTC := none }

/-- A worker state with "Sunset" missed: in the stored schedule and in the
missed-items cache. -/
def missedState : SchedState :=
  { store := some { schedule := [sunsetItem], recentlyPublished := [], activeIndex := some 0 },
    activeDbIndex := 0, publishingInProgress := [], publishingQueue := [],
    isQueueProcessing := false, missedItemsCache := [sunsetItem],
    missedItemsNotificationSent := true, isWorkerPaused := false }

/-- C7 counterexample: the part_002 `rescheduleMissedItem` (via
`rescheduleItemsByIds`) accepts the malformed offset `"10x"` — the unit
character `x` is not one of `s`, `m`, `h`, yet the `else` branch treats it as
seconds: the call succeeds and mutates both the persisted schedule entry
(`scheduledAtUTC` becomes now + 10 s, status back to Pending) and the
missed-items cache. -/
theorem rescheduleMissedItem_accepts_bad_unit :
    lastCharLower "10x" = some 'x' ∧
    (rescheduleMissedItem missedState "sunset" "10x" 1000).success = true ∧
    (activeDoc (rescheduleMissedItem missedState "sunset" "10x" 1000).state).schedule
      = [{ id := "a1", title := "Sunset", theme := "", scheduledAtUTC := some 11000,
           status := some Status.Pending, failMessage := some missedFailMessage,
           publishedAtUTC := none }] ∧
    (rescheduleMissedItem missedState "sunset" "10x" 1000).state.missedItemsCache = [] := by
  decide

/-- C7 (amended): a `timeOffset` whose numeric portion does not parse is
rejected with no mutation by both variants of `rescheduleMissedItem`
(part_002 and worker.js); a `timeOffset` whose unit character is not one of
`s`, `m`, `h` is rejected with no mutation only by the worker.js variant,
while the part_002 variant treats it as seconds (see the counterexample). -/
theorem rescheduleMissedItem_rejects_malformed (st : SchedState)
    (identifier ts : String) (now : Int) :
    (parseIntJS (sliceDropLast ts) = none →
      (rescheduleMissedItem st identifier ts now).success = false ∧
      (rescheduleMissedItem st identifier ts now).state = st) ∧
    (parseIntJS (sliceDropLast ts) = none →
      (WorkerJs.rescheduleMissedItem st identifier ts now).success = false ∧
      (WorkerJs.rescheduleMissedItem st identifier ts now).state = st) ∧
    (¬ (lastCharLower ts = some 's' ∨ lastCharLower ts = some 'm' ∨ lastCharLower ts = some 'h') →
      (WorkerJs.rescheduleMissedItem st identifier ts now).success = false ∧
      (WorkerJs.rescheduleMissedItem st identifier ts now).state = st) := by
  refine ⟨?_, ?_, ?_⟩
  · intro hparse
    simp only [rescheduleMissedItem, rescheduleItemsByIds, hparse]
    split
    · refine ⟨?_, ?_⟩ <;> first | rfl | trivial
    · refine ⟨?_, ?_⟩ <;> first | rfl | trivial
  · intro hparse
    simp only [WorkerJs.rescheduleMissedItem, hparse]
    refine ⟨?_, ?_⟩ <;> first | rfl | trivial
  · intro hunit
    simp only [WorkerJs.rescheduleMissedItem]
    split
    · refine ⟨?_, ?_⟩ <;> first | rfl | trivial
    · rw [if_neg hunit]
      refine ⟨?_, ?_⟩ <;> first | rfl | trivial

/-- Witness for `rescheduleMissedItem_rejects_malformed`: the offsets `"xm"`
(no digits) and `"10x"` (bad unit) on the missed-state fixture. -/
theorem rescheduleMissedItem_rejects_malformed_witness :
    ((rescheduleMissedItem missedState "sunset" "xm" 1000).success = false ∧
      (rescheduleMissedItem missedState "sunset" "xm" 1000).state = missedState) ∧
    ((WorkerJs.rescheduleMissedItem missedState "sunset" "xm" 1000).success = false ∧
      (WorkerJs.rescheduleMissedItem missedState "sunset" "xm" 1000).state = missedState) ∧
    ((WorkerJs.rescheduleMissedItem missedState "sunset" "10x" 1000).success = false ∧
      (WorkerJs.rescheduleMissedItem missedState "sunset" "10x" 1000).state = missedState) :=
  ⟨(rescheduleMissedItem_rejects_malformed missedState "sunset" "xm" 1000).1 (by decide),
   (rescheduleMissedItem_rejects_malformed missedState "sunset" "xm" 1000).2.1 (by decide),
   (rescheduleMissedItem_rejects_malformed missedState "sunset" "10x" 1000).2.2 (by decide)⟩

end ZedgeWorker

/-! ## Claim C8: missed-alert debounce -/

namespace ZedgeWorker

/-- Run a sequence of scan cycles (one wall-clock time per cycle) and count
the missed-items alerts sent. -/
def scanAlertCount : SchedState → List Int → SchedState × Nat
  | st, [] => (st, 0)
  | st, now :: rest =>
    let out := checkScheduleForPublishing st now
    let r := scanAlertCount out.state rest
    (r.1, (if out.alertSent then 1 else 0) + r.2)

/-- A scan cycle never clears the debounce flag: with the flag set, no alert
is sent and the flag stays set. -/
theorem scan_flag_monotone (st : SchedState) (now : Int)
    (h : st.missedItemsNotificationSent = true) :
    (checkScheduleForPublishing st now).alertSent = false ∧
    (checkScheduleForPublishing st now).state.missedItemsNotificationSent = true := by
  simp only [checkScheduleForPublishing, runScan]
  split_ifs <;> simp_all

/-- If a scan cycle sends the alert, it also sets the debounce flag. -/
theorem scan_alert_sets_flag (st : SchedState) (now : Int)
    (h : (checkScheduleForPublishing st now).alertSent = true) :
    (checkScheduleForPublishing st now).state.missedItemsNotificationSent = true := by
  simp only [checkScheduleForPublishing, runScan] at h ⊢
  split_ifs at h ⊢ <;> simp_all

/-- A trace of scan cycles starting with the flag set sends no alert, and any
trace of scan cycles sends at most one alert. -/
theorem scanAlertCount_le_one (nows : List Int) (st : SchedState) :
    (st.missedItemsNotificationSent = true → (scanAlertCount st nows).2 = 0) ∧
    (scanAlertCount st nows).2 ≤ 1 := by
  induction nows generalizing st with
  | nil => exact ⟨fun _ => rfl, by simp [scanAlertCount]⟩
  | cons now rest ih =>
    constructor
    · intro h
      have hm := scan_flag_monotone st now h
      have hr := (ih (checkScheduleForPublishing st now).state).1 hm.2
      simp [scanAlertCount, hm.1, hr]
    · by_cases ha : (checkScheduleForPublishing st now).alertSent = true
      · have hf := scan_alert_sets_flag st now ha
        have hr := (ih (checkScheduleForPublishing st now).state).1 hf
        simp [scanAlertCount, ha, hr]
      · have hr := (ih (checkScheduleForPublishing st now).state).2
        simp only [scanAlertCount, Bool.not_eq_true] at ha ⊢
        rw [ha]
        simpa using hr

/-- C8 counterexample: the cache can become empty through resolution without
the debounce flag being reset — `publishMissedItems("all-missed")` on a
one-item cache with the flag set empties the cache, succeeds, and leaves
`missedItemsNotificationSent = true`, contradicting the claim's assertion
that emptying through resolution resets the flag to false. -/
theorem publishMissedItems_empty_keeps_flag :
    missedState.missedItemsNotificationSent = true ∧
    (publishMissedItems missedState "all-missed").success = true ∧
    (publishMissedItems missedState "all-missed").state.missedItemsCache = [] ∧
    (publishMissedItems missedState "all-missed").state.missedItemsNotificationSent = true := by
  decide

/-- C8 (amended): starting from any state, repeated runs of the scan cycle
emit at most one missed-items alert in total, and none once the debounce flag
is set; `clearMissedItemsCache()` resets the flag (emptying the cache), and a
successful reschedule resolution that leaves the cache empty resets the flag.
(Emptying the cache via `publishMissedItems` does not reset the flag — see
the counterexample.) -/
theorem missed_alert_debounce (st : SchedState) (nows : List Int)
    (identifier ts : String) (now : Int) :
    ((scanAlertCount st nows).2 ≤ 1) ∧
    (st.missedItemsNotificationSent = true → (scanAlertCount st nows).2 = 0) ∧
    ((clearMissedItemsCache st).missedItemsNotificationSent = false ∧
      (clearMissedItemsCache st).missedItemsCache = []) ∧
    ((rescheduleMissedItem st identifier ts now).success = true →
      (rescheduleMissedItem st identifier ts now).state.missedItemsCache = [] →
      (rescheduleMissedItem st identifier ts now).state.missedItemsNotificationSent = false) := by
  refine ⟨(scanAlertCount_le_one nows st).2, (scanAlertCount_le_one nows st).1, ⟨rfl, rfl⟩, ?_⟩
  intro hs hc
  rcases hfind : List.find? (fun i => strToLower i.title == strToLower identifier)
      st.missedItemsCache with _ | item
  · simp only [rescheduleMissedItem, hfind] at hs
    simp at hs
  · simp only [rescheduleMissedItem, hfind] at hs hc ⊢
    by_cases hr : (rescheduleItemsByIds st [item.id] ts now).success = true
    · simp only [if_pos hr] at hc ⊢
      simp only [hc, List.isEmpty_nil, if_true]
    · simp only [if_neg hr] at hs
      exact absurd hs hr

/-- Witness for `missed_alert_debounce`: two scan cycles on the missed-state
fixture with the flag cleared send exactly one alert, and rescheduling the
only missed item resets the flag. -/
theorem missed_alert_debounce_witness :
    ((scanAlertCount { missedState with missedItemsNotificationSent := false }
        [600000, 660000]).2 ≤ 1) ∧
    ((clearMissedItemsCache missedState).missedItemsNotificationSent = false ∧
      (clearMissedItemsCache missedState).missedItemsCache = []) ∧
    (rescheduleMissedItem missedState "sunset" "10m" 1000).state.missedItemsNotificationSent
      = false :=
  have h := missed_alert_debounce { missedState with missedItemsNotificationSent := false }
    [600000, 660000] "sunset" "10m" 1000
  have h2 := missed_alert_debounce missedState [] "sunset" "10m" 1000
  ⟨h.1, ⟨h2.2.2.1.1, h2.2.2.1.2⟩, h2.2.2.2 (by decide) (by decide)⟩

end ZedgeWorker

/-! ## Claim C10: manual publish paths bypass the in-flight set -/

namespace ZedgeWorker

/-- The due pending item for the double-enqueue trace. -/
def dueItem : Item :=
  { id := "a1", title := "Sunset", theme := "", scheduledAtUTC := some 100000,
    status := some Status.Pending, failMessage := none, publishedAtUTC := none }

/-- A worker state with `dueItem` scheduled and due, an old drain still
active (`isQueueProcessing = true`), and nothing in flight. -/
def dueState : SchedState :=
  { store := some { schedule := [dueItem], recentlyPublished := [], activeIndex := some 0 },
    activeDbIndex := 0, publishingInProgress := [], publishingQueue := [],
    isQueueProcessing := true, missedItemsCache := [],
    missedItemsNotificationSent := false, isWorkerPaused := false }

/-- C10: `publishNowByIds` and `publishMissedItems` never insert ids into
`publishingInProgress` (the in-flight set is preserved verbatim, so the moved
items' ids are absent right after a successful call whenever they were absent
before); consequently, on the concrete trace below, a scan cycle running
while the moved item's schedule entry is still Pending and due enqueues the
same item a second time. -/
theorem manual_publish_bypasses_inflight_set :
    (∀ (st : SchedState) (itemIds : List String),
      (publishNowByIds st itemIds).state.publishingInProgress = st.publishingInProgress) ∧
    (∀ (st : SchedState) (identifier : String),
      (publishMissedItems st identifier).state.publishingInProgress = st.publishingInProgress) ∧
    ((publishNowByIds dueState ["a1"]).success = true ∧
      (publishNowByIds dueState ["a1"]).state.publishingInProgress = [] ∧
      (publishNowByIds dueState ["a1"]).state.publishingQueue = [dueItem] ∧
      (checkScheduleForPublishing (publishNowByIds dueState ["a1"]).state 100000).state.publishingQueue
        = [dueItem, dueItem] ∧
      (checkScheduleForPublishing (publishNowByIds dueState ["a1"]).state 100000).state.publishingInProgress
        = ["a1"]) := by
  refine ⟨?_, ?_, ?_⟩
  · intro st itemIds
    simp only [publishNowByIds]
    split
    · rfl
    · rfl
  · intro st identifier
    simp only [publishMissedItems]
    split_ifs with h1 h2
    · rfl
    · rfl
    · split
      · rfl
      · rfl
  · exact ⟨by decide, by decide, by decide, by decide, by decide⟩

end ZedgeWorker

/-! ## Claim C4: queue drain isolation and completion -/

namespace ZedgeWorker

/-- No schedule entry of the stored document with the given id is pending. -/
def NoPend (st : SchedState) (x : String) : Prop :=
  ∀ e ∈ (activeDoc st).schedule, e.id = x → isPending e = false

/-- The stored schedule's ids are duplicate-free. -/
def IdsNodup (st : SchedState) : Prop :=
  ((activeDoc st).schedule.map Item.id).Nodup

theorem findFirstById_eq_none (l : List Item) (x : String)
    (h : findFirstById l x = none) : ∀ e ∈ l, e.id ≠ x := by
  induction l with
  | nil => intro e he; exact absurd he (List.not_mem_nil e)
  | cons a rest ih =>
    intro e he
    simp only [findFirstById] at h
    by_cases ha : a.id = x
    · rw [if_pos ha] at h; exact absurd h (by simp)
    · rw [if_neg ha] at h
      rcases List.mem_cons.mp he with rfl | hrest
      · exact ha
      · exact ih h e hrest

theorem removeFirstById_sublist (l : List Item) (x : String) :
    List.Sublist (removeFirstById l x) l := by
  induction l with
  | nil => exact List.Sublist.refl _
  | cons a rest ih =>
    simp only [removeFirstById]
    by_cases ha : a.id = x
    · rw [if_pos ha]; exact List.sublist_cons_self a rest
    · rw [if_neg ha]; exact List.Sublist.cons₂ a ih

theorem mem_removeFirstById (l : List Item) (x : String) (e : Item)
    (h : e ∈ removeFirstById l x) : e ∈ l :=
  (removeFirstById_sublist l x).mem h

theorem removeFirstById_no_id (l : List Item) (x : String)
    (hnd : (l.map Item.id).Nodup) : ∀ e ∈ removeFirstById l x, e.id ≠ x := by
  induction l with
  | nil => intro e he; exact absurd he (List.not_mem_nil e)
  | cons a rest ih =>
    simp only [List.map_cons, List.nodup_cons] at hnd
    intro e he
    simp only [removeFirstById] at he
    by_cases ha : a.id = x
    · rw [if_pos ha] at he
      intro hex
      apply hnd.1
      rw [ha, ← hex]
      exact List.mem_map_of_mem Item.id he
    · rw [if_neg ha] at he
      rcases List.mem_cons.mp he with rfl | hrest
      · exact ha
      · exact ih hnd.2 e hrest

theorem mem_updateFirstById (l : List Item) (x : String) (f : Item → Item) (e : Item)
    (h : e ∈ updateFirstById l x f) : e ∈ l ∨ ∃ e0 ∈ l, e = f e0 := by
  induction l with
  | nil => exact absurd h (List.not_mem_nil e)
  | cons a rest ih =>
    simp only [updateFirstById] at h
    by_cases ha : a.id = x
    · rw [if_pos ha] at h
      rcases List.mem_cons.mp h with rfl | hrest
      · exact Or.inr ⟨a, List.mem_cons_self a rest, rfl⟩
      · exact Or.inl (List.mem_cons_of_mem a hrest)
    · rw [if_neg ha] at h
      rcases List.mem_cons.mp h with rfl | hrest
      · exact Or.inl (List.mem_cons_self e rest)
      · rcases ih hrest with h1 | ⟨e0, he0, rfl⟩
        · exact Or.inl (List.mem_cons_of_mem a h1)
        · exact Or.inr ⟨e0, List.mem_cons_of_mem a he0, rfl⟩

theorem updateFirstById_map_id (l : List Item) (x : String) (f : Item → Item)
    (hf : ∀ e, (f e).id = e.id) :
    (updateFirstById l x f).map Item.id = l.map Item.id := by
  induction l with
  | nil => rfl
  | cons a rest ih =>
    simp only [updateFirstById]
    by_cases ha : a.id = x
    · rw [if_pos ha]
      simp only [List.map_cons, hf]
    · rw [if_neg ha]
      simp only [List.map_cons, ih]

theorem updateFirstById_no_pending (l : List Item) (x : String) (f : Item → Item)
    (hnd : (l.map Item.id).Nodup)
    (hf : ∀ e, isPending (f e) = false) (hid : ∀ e, (f e).id = e.id) :
    ∀ e ∈ updateFirstById l x f, e.id = x → isPending e = false := by
  induction l with
  | nil => intro e he; exact absurd he (List.not_mem_nil e)
  | cons a rest ih =>
    simp only [List.map_cons, List.nodup_cons] at hnd
    intro e he hex
    simp only [updateFirstById] at he
    by_cases ha : a.id = x
    · rw [if_pos ha] at he
      rcases List.mem_cons.mp he with rfl | hrest
      · exact hf a
      · exfalso
        apply hnd.1
        rw [ha, ← hex]
        exact List.mem_map_of_mem Item.id hrest
    · rw [if_neg ha] at he
      rcases List.mem_cons.mp he with rfl | hrest
      · exact absurd hex ha
      · exact ih hnd.2 e hrest hex

/-- `executePublishWorkflow` only touches the store: queue, flag, in-flight
set, cache and the rest of the runtime state are unchanged. -/
theorem exec_frame (st : SchedState) (now : Int) (i : Item) (r : PubResult) :
    (executePublishWorkflow st now i r).publishingQueue = st.publishingQueue ∧
    (executePublishWorkflow st now i r).isQueueProcessing = st.isQueueProcessing ∧
    (executePublishWorkflow st now i r).publishingInProgress = st.publishingInProgress ∧
    (executePublishWorkflow st now i r).missedItemsCache = st.missedItemsCache ∧
    (executePublishWorkflow st now i r).activeDbIndex = st.activeDbIndex := by
  simp only [executePublishWorkflow]
  split
  · refine ⟨?_, ?_, ?_, ?_, ?_⟩ <;> first | rfl | trivial
  · split
    · refine ⟨?_, ?_, ?_, ?_, ?_⟩ <;> first | rfl | trivial
    · refine ⟨?_, ?_, ?_, ?_, ?_⟩ <;> first | rfl | trivial

/-- When the item is no longer in the stored schedule, the workflow changes
nothing. -/
theorem exec_doc_none (st : SchedState) (now : Int) (i : Item) (r : PubResult)
    (hfind : findFirstById (activeDoc st).schedule i.id = none) :
    executePublishWorkflow st now i r = st := by
  simp only [executePublishWorkflow, hfind]

/-- Stored schedule after a successful workflow run: the first entry with the
item's id is spliced out. -/
theorem exec_doc_success (st : SchedState) (now : Int) (i : Item) (entry : Item)
    (hfind : findFirstById (activeDoc st).schedule i.id = some entry) :
    (activeDoc (executePublishWorkflow st now i PubResult.success)).schedule
      = removeFirstById (activeDoc st).schedule i.id := by
  simp only [executePublishWorkflow, hfind]
  rfl

/-- Stored schedule after a failed workflow run: the first entry with the
item's id is marked Failed with the reported message. -/
theorem exec_doc_failed (st : SchedState) (now : Int) (i : Item) (entry : Item) (msg : String)
    (hfind : findFirstById (activeDoc st).schedule i.id = some entry) :
    (activeDoc (executePublishWorkflow st now i (PubResult.failed msg))).schedule
      = updateFirstById (activeDoc st).schedule i.id
          (fun e => { e with status := some Status.Failed, failMessage := some msg }) := by
  simp only [executePublishWorkflow, hfind]
  rfl

/-- The stored schedule after one workflow run: unchanged, first-id-removed,
or first-id-marked-failed. -/
theorem exec_schedule_cases (st : SchedState) (now : Int) (i : Item) (r : PubResult) :
    (activeDoc (executePublishWorkflow st now i r)).schedule = (activeDoc st).schedule ∨
    (activeDoc (executePublishWorkflow st now i r)).schedule
      = removeFirstById (activeDoc st).schedule i.id ∨
    ∃ msg, (activeDoc (executePublishWorkflow st now i r)).schedule
      = updateFirstById (activeDoc st).schedule i.id
          (fun e => { e with status := some Status.Failed, failMessage := some msg }) := by
  rcases hfind : findFirstById (activeDoc st).schedule i.id with _ | entry
  · rw [exec_doc_none st now i r hfind]
    exact Or.inl rfl
  · rcases r with _ | msg
    · exact Or.inr (Or.inl (exec_doc_success st now i entry hfind))
    · exact Or.inr (Or.inr ⟨msg, exec_doc_failed st now i entry msg hfind⟩)

theorem exec_preserves_nodup (st : SchedState) (now : Int) (i : Item) (r : PubResult)
    (hnd : IdsNodup st) : IdsNodup (executePublishWorkflow st now i r) := by
  rcases exec_schedule_cases st now i r with h | h | ⟨msg, h⟩
  · unfold IdsNodup; rw [h]; exact hnd
  · unfold IdsNodup; rw [h]
    exact ((removeFirstById_sublist _ _).map Item.id).nodup hnd
  · unfold IdsNodup
    rw [h]
    have hids := updateFirstById_map_id (activeDoc st).schedule i.id
      (fun e => { e with status := some Status.Failed, failMessage := some msg })
      (fun e => rfl)
    rw [hids]
    exact hnd

theorem exec_preserves_noPend (st : SchedState) (now : Int) (i : Item) (r : PubResult)
    (y : String) (h : NoPend st y) : NoPend (executePublishWorkflow st now i r) y := by
  rcases exec_schedule_cases st now i r with hc | hc | ⟨msg, hc⟩
  · unfold NoPend; rw [hc]; exact h
  · unfold NoPend; rw [hc]
    intro e he hey
    exact h e (mem_removeFirstById _ _ _ he) hey
  · unfold NoPend; rw [hc]
    intro e he hey
    rcases mem_updateFirstById _ _ _ _ he with h1 | ⟨e0, _, rfl⟩
    · exact h e h1 hey
    · simp [isPending]

theorem exec_establishes_noPend (st : SchedState) (now : Int) (i : Item) (r : PubResult)
    (hnd : IdsNodup st) : NoPend (executePublishWorkflow st now i r) i.id := by
  rcases hfind : findFirstById (activeDoc st).schedule i.id with _ | entry
  · rw [exec_doc_none st now i r hfind]
    intro e he hei
    exact absurd hei (findFirstById_eq_none _ _ hfind e he)
  · rcases r with _ | msg
    · unfold NoPend
      rw [exec_doc_success st now i entry hfind]
      intro e he hei
      exact absurd hei (removeFirstById_no_id _ _ hnd e he)
    · unfold NoPend
      rw [exec_doc_failed st now i entry msg hfind]
      intro e he hei
      exact updateFirstById_no_pending (activeDoc st).schedule i.id
        (fun e0 => { e0 with status := some Status.Failed, failMessage := some msg })
        hnd (fun e0 => rfl) (fun e0 => rfl) e he hei

/-- Full specification of one drain-loop run over the queue list. -/
theorem drainLoop_spec (now : Int) (oracle : Item → POutcome) :
    ∀ (l : List Item) (st : SchedState), st.publishingQueue = l → IdsNodup st →
      (drainLoop now oracle st l).2 = l ∧
      (drainLoop now oracle st l).1.publishingQueue = (if l = [] then st.publishingQueue else []) ∧
      (drainLoop now oracle st l).1.isQueueProcessing = st.isQueueProcessing ∧
      (∀ x, x ∈ (drainLoop now oracle st l).1.publishingInProgress →
        x ∈ st.publishingInProgress ∧ x ∉ l.map Item.id) ∧
      IdsNodup (drainLoop now oracle st l).1 ∧
      (∀ y, NoPend st y → NoPend (drainLoop now oracle st l).1 y) ∧
      (∀ i ∈ l, oracle i ≠ POutcome.thrown → NoPend (drainLoop now oracle st l).1 i.id) := by
  intro l
  induction l with
  | nil =>
    intro st hq hnd
    refine ⟨rfl, by simp [drainLoop], rfl, ?_, hnd, fun y h => h, ?_⟩
    · intro x hx
      exact ⟨hx, by simp⟩
    · intro i hi
      exact absurd hi (List.not_mem_nil i)
  | cons item rest ih =>
    intro st hq hnd
    -- the three intermediate states of one loop body
    set st1 : SchedState := { st with publishingQueue := rest } with hst1
    have hnd1 : IdsNodup st1 := hnd
    set st2 : SchedState := (match oracle item with
      | POutcome.thrown => st1
      | POutcome.completes r => executePublishWorkflow st1 now item r) with hst2
    have hframe2 : st2.publishingQueue = rest ∧ st2.isQueueProcessing = st.isQueueProcessing ∧
        st2.publishingInProgress = st.publishingInProgress := by
      rcases ho : oracle item with r | _
      · simp only [hst2, ho]
        exact ⟨(exec_frame st1 now item r).1, (exec_frame st1 now item r).2.1,
          (exec_frame st1 now item r).2.2.1⟩
      · simp only [hst2, ho]
        refine ⟨?_, ?_, ?_⟩ <;> first | rfl | trivial
    have hnd2 : IdsNodup st2 := by
      rcases ho : oracle item with r | _
      · simp only [hst2, ho]; exact exec_preserves_nodup st1 now item r hnd1
      · simp only [hst2, ho]; exact hnd1
    have hpend2 : ∀ y, NoPend st1 y → NoPend st2 y := by
      intro y h
      rcases ho : oracle item with r | _
      · simp only [hst2, ho]; exact exec_preserves_noPend st1 now item r y h
      · simp only [hst2, ho]; exact h
    have hself2 : oracle item ≠ POutcome.thrown → NoPend st2 item.id := by
      intro hno
      rcases ho : oracle item with r | _
      · simp only [hst2, ho]; exact exec_establishes_noPend st1 now item r hnd1
      · exact absurd ho hno
    set st3 : SchedState := { st2 with
      publishingInProgress := st2.publishingInProgress.filter (fun x => x ≠ item.id) } with hst3
    have hq3 : st3.publishingQueue = rest := hframe2.1
    have hnd3 : IdsNodup st3 := hnd2
    have hrec := ih st3 hq3 hnd3
    have hunfold : drainLoop now oracle st (item :: rest)
        = ((drainLoop now oracle st3 rest).1, item :: (drainLoop now oracle st3 rest).2) := by
      rfl
    rw [hunfold]
    refine ⟨by rw [hrec.1], ?_, ?_, ?_, hrec.2.2.2.2.1, ?_, ?_⟩
    · rw [if_neg (show ¬ (item :: rest) = [] by simp)]
      by_cases hr0 : rest = []
      · rw [hrec.2.1, if_pos hr0, hq3, hr0]
      · rw [hrec.2.1, if_neg hr0]
    · rw [hrec.2.2.1]
      simp only [hst3]
      exact hframe2.2.1
    · intro x hx
      have h3 := hrec.2.2.2.1 x hx
      have hin3 : x ∈ st3.publishingInProgress := h3.1
      have hprop : x ∈ st2.publishingInProgress ∧ x ≠ item.id := by
        simp only [hst3, List.mem_filter, decide_eq_true_eq] at hin3
        exact ⟨hin3.1, hin3.2⟩
      refine ⟨by rw [← hframe2.2.2]; exact hprop.1, ?_⟩
      simp only [List.map_cons, List.mem_cons]
      rintro (h | h)
      · exact hprop.2 h
      · exact h3.2 h
    · intro y h
      exact hrec.2.2.2.2.2.1 y (hpend2 y h)
    · intro i hi hno
      rcases List.mem_cons.mp hi with rfl | hrest2
      · exact hrec.2.2.2.2.2.1 i.id (hself2 hno)
      · exact hrec.2.2.2.2.2.2 i hrest2 hno

end ZedgeWorker

namespace ZedgeWorker

/-- A pending scheduled item sitting in both the stored schedule and the
publish queue. -/
def pendItem : Item :=
  { id := "p1", title := "Dawn", theme := "", scheduledAtUTC := some 0,
    status := some Status.Pending, failMessage := none, publishedAtUTC := none }

/-- Ready-to-drain state: `pendItem` queued, in flight, still Pending in the
store. -/
def thrownState : SchedState :=
  { store := some { schedule := [pendItem], recentlyPublished := [], activeIndex := some 0 },
    activeDbIndex := 0, publishingInProgress := ["p1"], publishingQueue := [pendItem],
    isQueueProcessing := false, missedItemsCache := [],
    missedItemsNotificationSent := false, isWorkerPaused := false }

/-- C4 counterexample: when an item's publish workflow throws (the exception
is raised before the workflow's document update — e.g. `performPublish`
rejecting out of its `finally` — and swallowed by the drain loop's `catch`),
the drain still completes — queue empty, id removed from
`publishingInProgress`, `isQueueProcessing` reset — but the item's schedule
entry keeps status Pending, contradicting the claim that no item is left
Pending. -/
theorem thrown_workflow_leaves_item_pending :
    (processPublishingQueue thrownState 0 (fun _ => POutcome.thrown)).2 = [pendItem] ∧
    (processPublishingQueue thrownState 0 (fun _ => POutcome.thrown)).1.publishingQueue = [] ∧
    (processPublishingQueue thrownState 0 (fun _ => POutcome.thrown)).1.publishingInProgress = [] ∧
    (processPublishingQueue thrownState 0 (fun _ => POutcome.thrown)).1.isQueueProcessing = false ∧
    (activeDoc (processPublishingQueue thrownState 0 (fun _ => POutcome.thrown)).1).schedule
      = [pendItem] ∧
    isPending pendItem = true := by
  decide

/-- C4 (amended): for every initial queue whose stored schedule has
duplicate-free ids and an idle drain, one run of the drain loop attempts the
publish workflow for every queued item, afterwards `publishingQueue` is
empty, every queued item's id has been removed from `publishingInProgress`
regardless of outcome, `isQueueProcessing` is false, and every queued item
whose workflow completed (did not throw) has no Pending schedule entry left;
an item whose workflow threw may remain Pending (see the counterexample). -/
theorem queue_drain_isolation (st : SchedState) (now : Int) (oracle : Item → POutcome)
    (hq : st.isQueueProcessing = false) (hnd : IdsNodup st) :
    (processPublishingQueue st now oracle).2 = st.publishingQueue ∧
    (processPublishingQueue st now oracle).1.publishingQueue = [] ∧
    (processPublishingQueue st now oracle).1.isQueueProcessing = false ∧
    (∀ i ∈ st.publishingQueue,
      i.id ∉ (processPublishingQueue st now oracle).1.publishingInProgress) ∧
    (∀ i ∈ st.publishingQueue, oracle i ≠ POutcome.thrown →
      NoPend (processPublishingQueue st now oracle).1 i.id) := by
  by_cases h0 : st.publishingQueue = []
  · simp only [processPublishingQueue, if_pos (Or.inr h0)]
    refine ⟨h0.symm, h0, hq, ?_, ?_⟩
    · intro i hi
      rw [h0] at hi
      exact absurd hi (List.not_mem_nil i)
    · intro i hi
      rw [h0] at hi
      exact absurd hi (List.not_mem_nil i)
  · have hguard : ¬ (st.isQueueProcessing = true ∨ st.publishingQueue = []) := by
      rintro (h | h)
      · rw [hq] at h; exact absurd h (by simp)
      · exact h0 h
    have hspec := drainLoop_spec now oracle st.publishingQueue
      { st with isQueueProcessing := true } rfl hnd
    have hpq : processPublishingQueue st now oracle
        = ({ (drainLoop now oracle { st with isQueueProcessing := true } st.publishingQueue).1
              with isQueueProcessing := false },
           (drainLoop now oracle { st with isQueueProcessing := true } st.publishingQueue).2) := by
      simp only [processPublishingQueue, if_neg hguard]
    rw [hpq]
    dsimp only
    refine ⟨hspec.1, ?_, rfl, ?_, ?_⟩
    · rw [hspec.2.1, if_neg h0]
    · intro i hi hmem
      exact (hspec.2.2.2.1 i.id hmem).2 (List.mem_map_of_mem Item.id hi)
    · intro i hi hno
      exact hspec.2.2.2.2.2.2 i hi hno

/-- Two items scheduled and queued: `pendItem` (whose workflow will throw)
and `mkItem 1` (whose workflow will succeed). -/
def mixedState : SchedState :=
  { store := some { schedule := [pendItem, mkItem 1], recentlyPublished := [], activeIndex := some 0 },
    activeDbIndex := 0, publishingInProgress := ["p1", "1"],
    publishingQueue := [pendItem, mkItem 1], isQueueProcessing := false,
    missedItemsCache := [], missedItemsNotificationSent := false, isWorkerPaused := false }

/-- The workflow for `pendItem` throws; every other workflow succeeds. -/
def mixedOracle : Item → POutcome :=
  fun i => if i.id = "p1" then POutcome.thrown else POutcome.completes PubResult.success

/-- Witness for `queue_drain_isolation`: a two-item queue where the first
item's workflow throws and the second completes; both items are attempted,
the queue drains, and both ids leave the in-flight set. -/
theorem queue_drain_isolation_witness :
    (processPublishingQueue mixedState 0 mixedOracle).2 = [pendItem, mkItem 1] ∧
    (processPublishingQueue mixedState 0 mixedOracle).1.publishingQueue = [] ∧
    (∀ i ∈ [pendItem, mkItem 1],
      i.id ∉ (processPublishingQueue mixedState 0 mixedOracle).1.publishingInProgress) :=
  have h := queue_drain_isolation mixedState 0 mixedOracle (by decide)
    (by unfold IdsNodup; decide)
  ⟨h.1, h.2.1, h.2.2.2.1⟩

end ZedgeWorker

/-! ## Claim C5: missed-item transition and idempotence -/

namespace ZedgeWorker

/-- Shape of one scan-loop step: exactly one entry (with the item's id) is
appended to the processed schedule; `newlyMissed` gains at most the
missed-marked item; `inProgress` gains at most the item's id; and
`dataWasChanged` is monotone. -/
theorem scanStep_shape (now : Int) (cache : List Item) (acc : ScanAcc) (item : Item) :
    (∃ j, (scanStep now cache acc item).sched = acc.sched ++ [j] ∧ j.id = item.id) ∧
    ((scanStep now cache acc item).newlyMissed = acc.newlyMissed ∨
      (scanStep now cache acc item).newlyMissed = acc.newlyMissed ++ [markMissed item]) ∧
    ((scanStep now cache acc item).inProgress = acc.inProgress ∨
      (scanStep now cache acc item).inProgress = acc.inProgress ++ [item.id]) ∧
    (acc.dataWasChanged = true → (scanStep now cache acc item).dataWasChanged = true) := by
  simp only [scanStep]
  split
  · exact ⟨⟨item, rfl, rfl⟩, Or.inl rfl, Or.inl rfl, fun h => h⟩
  · split_ifs <;>
      first
        | exact ⟨⟨item, rfl, rfl⟩, Or.inl rfl, Or.inl rfl, fun h => h⟩
        | exact ⟨⟨markMissed item, rfl, rfl⟩, Or.inr rfl, Or.inl rfl, fun h => rfl⟩
        | exact ⟨⟨item, rfl, rfl⟩, Or.inl rfl, Or.inr rfl, fun h => h⟩

/-- A non-pending entry never contributes to `newlyMissedItems`. -/
theorem scanStep_nonpending_newlyMissed (now : Int) (cache : List Item) (acc : ScanAcc)
    (item : Item) (h : isPending item = false) :
    (scanStep now cache acc item).newlyMissed = acc.newlyMissed := by
  simp only [scanStep]
  split
  · rfl
  · rw [if_pos h]

/-- Folding the scan step over entries none of which carries the id `y`
leaves everything about `y` untouched: the `newlyMissed` count for `y`, the
processed entries with id `y` (none are added), and membership of previously
processed entries; `dataWasChanged` stays monotone. -/
theorem scanFold_no_id (now : Int) (cache : List Item) (y : String) :
    ∀ (l : List Item) (acc : ScanAcc), (∀ x ∈ l, x.id ≠ y) →
      ((List.foldl (scanStep now cache) acc l).newlyMissed.countP (fun c => c.id == y)
        = acc.newlyMissed.countP (fun c => c.id == y)) ∧
      (∀ e ∈ (List.foldl (scanStep now cache) acc l).sched, e.id = y → e ∈ acc.sched) ∧
      (∀ e ∈ acc.sched, e ∈ (List.foldl (scanStep now cache) acc l).sched) ∧
      (acc.dataWasChanged = true →
        (List.foldl (scanStep now cache) acc l).dataWasChanged = true) := by
  intro l
  induction l with
  | nil =>
    intro acc _
    exact ⟨rfl, fun e he _ => he, fun e he => he, fun h => h⟩
  | cons h0 rest ih =>
    intro acc hno
    have hy0 : h0.id ≠ y := hno h0 (List.mem_cons_self h0 rest)
    have hshape := scanStep_shape now cache acc h0
    have hrec := ih (scanStep now cache acc h0)
      (fun x hx => hno x (List.mem_cons_of_mem h0 hx))
    simp only [List.foldl_cons]
    refine ⟨?_, ?_, ?_, ?_⟩
    · rw [hrec.1]
      rcases hshape.2.1 with h | h
      · rw [h]
      · rw [h, List.countP_append]
        simp [markMissed, hy0]
    · intro e he hey
      have h2 := hrec.2.1 e he hey
      rcases hshape.1 with ⟨j, hj, hjid⟩
      rw [hj] at h2
      rcases List.mem_append.mp h2 with h3 | h3
      · exact h3
      · exfalso
        have hej : e = j := by simpa using h3
        rw [hej, hjid] at hey
        exact hy0 hey
    · intro e he
      apply hrec.2.2.1
      rcases hshape.1 with ⟨j, hj, _⟩
      rw [hj]
      exact List.mem_append_left _ he
    · intro hdc
      exact hrec.2.2.2 (hshape.2.2.2 hdc)

/-- When every entry with id `y` is non-pending, a scan pass adds nothing
with id `y` to `newlyMissedItems`. -/
theorem scanFold_nonpending (now : Int) (cache : List Item) (y : String) :
    ∀ (l : List Item) (acc : ScanAcc), (∀ x ∈ l, x.id = y → isPending x = false) →
      (List.foldl (scanStep now cache) acc l).newlyMissed.countP (fun c => c.id == y)
        = acc.newlyMissed.countP (fun c => c.id == y) := by
  intro l
  induction l with
  | nil => intro acc _; rfl
  | cons h0 rest ih =>
    intro acc hnp
    have hrec := ih (scanStep now cache acc h0)
      (fun x hx hxy => hnp x (List.mem_cons_of_mem h0 hx) hxy)
    simp only [List.foldl_cons]
    rw [hrec]
    by_cases hy0 : h0.id = y
    · rw [scanStep_nonpending_newlyMissed now cache acc h0
        (hnp h0 (List.mem_cons_self h0 rest) hy0)]
    · rcases (scanStep_shape now cache acc h0).2.1 with h | h
      · rw [h]
      · rw [h, List.countP_append]
        simp [markMissed, hy0]

/-- With duplicate-free ids, an entry is determined by its id. -/
theorem nodup_unique_id (l : List Item) :
    (l.map Item.id).Nodup → ∀ e ∈ l, ∀ x ∈ l, x.id = e.id → x = e := by
  induction l with
  | nil =>
    intro _ e he
    exact absurd he (List.not_mem_nil e)
  | cons a rest ih =>
    intro hnd e he x hx hxe
    simp only [List.map_cons, List.nodup_cons] at hnd
    rcases List.mem_cons.mp he with rfl | herest
    · rcases List.mem_cons.mp hx with rfl | hxrest
      · rfl
      · exfalso
        apply hnd.1
        rw [← hxe]
        exact List.mem_map_of_mem Item.id hxrest
    · rcases List.mem_cons.mp hx with rfl | hxrest
      · exfalso
        apply hnd.1
        rw [hxe]
        exact List.mem_map_of_mem Item.id herest
      · exact ih hnd.2 e herest x hxrest hxe

/-- Main fold lemma for a missed item `e` (pending, past the grace window,
not cached, not in flight when reached, unique id): the pass appends
`markMissed e` to `newlyMissed` exactly once, every processed entry with its
id is `markMissed e` (or was already in the accumulator), and the pass
flags `dataWasChanged`. -/
theorem scanFold_missed_main (now : Int) (cache : List Item) (e : Item) (t : Int)
    (ht : e.scheduledAtUTC = some t) (hpend : isPending e = true)
    (htm : t < now - gracePeriodMs)
    (hcache : ∀ c ∈ cache, c.id ≠ e.id) :
    ∀ (l : List Item) (acc : ScanAcc),
      e ∈ l → (∀ x ∈ l, x.id = e.id → x = e) → (l.map Item.id).Nodup →
      e.id ∉ acc.inProgress →
      ((List.foldl (scanStep now cache) acc l).newlyMissed.countP (fun c => c.id == e.id)
         = acc.newlyMissed.countP (fun c => c.id == e.id) + 1) ∧
      (∀ x ∈ (List.foldl (scanStep now cache) acc l).sched, x.id = e.id →
        x = markMissed e ∨ x ∈ acc.sched) ∧
      (markMissed e ∈ (List.foldl (scanStep now cache) acc l).sched) ∧
      ((List.foldl (scanStep now cache) acc l).dataWasChanged = true) := by
  intro l
  induction l with
  | nil =>
    intro acc he
    exact absurd he (List.not_mem_nil e)
  | cons h0 rest ih =>
    intro acc he hall hnd hprog
    simp only [List.map_cons, List.nodup_cons] at hnd
    by_cases hid : h0.id = e.id
    · have h0e : h0 = e := hall h0 (List.mem_cons_self h0 rest) hid
      subst h0e
      have hstep : scanStep now cache acc h0
          = { acc with
              sched := acc.sched ++ [markMissed h0],
              newlyMissed := acc.newlyMissed ++ [markMissed h0],
              dataWasChanged := true } := by
        simp only [scanStep, ht]
        rw [if_neg (by simp [hpend]), if_neg ?hfut, if_pos htm, if_pos ⟨hcache, hprog⟩]
        case hfut =>
          have hg : gracePeriodMs = 300000 := rfl
          omega
      have hnorest : ∀ x ∈ rest, x.id ≠ h0.id := by
        intro x hx hxe
        apply hnd.1
        rw [← hxe]
        exact List.mem_map_of_mem Item.id hx
      have hA := scanFold_no_id now cache h0.id rest (scanStep now cache acc h0) hnorest
      simp only [List.foldl_cons]
      refine ⟨?_, ?_, ?_, ?_⟩
      · rw [hA.1, hstep]
        simp only [List.countP_append]
        simp [markMissed]
      · intro x hx hxe
        have h2 := hA.2.1 x hx hxe
        rw [hstep] at h2
        simp only at h2
        rcases List.mem_append.mp h2 with h3 | h3
        · exact Or.inr h3
        · exact Or.inl (by simpa using h3)
      · apply hA.2.2.1
        rw [hstep]
        simp only
        exact List.mem_append_right _ (List.mem_singleton_self _)
      · apply hA.2.2.2
        rw [hstep]
    · have herest : e ∈ rest := by
        rcases List.mem_cons.mp he with rfl | h
        · exact absurd rfl hid
        · exact h
      have hshape := scanStep_shape now cache acc h0
      have hprog1 : e.id ∉ (scanStep now cache acc h0).inProgress := by
        rcases hshape.2.2.1 with h | h
        · rw [h]; exact hprog
        · rw [h]
          intro hmem
          rcases List.mem_append.mp hmem with h1 | h1
          · exact hprog h1
          · have heid : e.id = h0.id := by simpa using h1
            exact hid heid.symm
      have hrec := ih (scanStep now cache acc h0) herest
        (fun x hx hxe => hall x (List.mem_cons_of_mem h0 hx) hxe) hnd.2 hprog1
      simp only [List.foldl_cons]
      refine ⟨?_, ?_, hrec.2.2.1, hrec.2.2.2⟩
      · rw [hrec.1]
        rcases hshape.2.1 with h | h
        · rw [h]
        · rw [h, List.countP_append]
          simp [markMissed, hid]
      · intro x hx hxe
        rcases hrec.2.1 x hx hxe with h | h
        · exact Or.inl h
        · rcases hshape.1 with ⟨j, hj, hjid⟩
          rw [hj] at h
          rcases List.mem_append.mp h with h1 | h1
          · exact Or.inr h1
          · exfalso
            have hxj : x = j := by simpa using h1
            rw [hxj, hjid] at hxe
            exact hid hxe

end ZedgeWorker

namespace ZedgeWorker

theorem isEmpty_false_of_mem {α : Type} {l : List α} {a : α} (h : a ∈ l) :
    l.isEmpty = false := by
  cases l with
  | nil => exact absurd h (List.not_mem_nil a)
  | cons b t => rfl

/-- Projections of a scan cycle's state that do not depend on the loop's
branches. -/
theorem runScan_state_parts (st : SchedState) (now : Int) :
    (runScan st now).state.missedItemsCache
      = st.missedItemsCache ++ (scanResult st now).newlyMissed ∧
    (runScan st now).state.isWorkerPaused = st.isWorkerPaused ∧
    (runScan st now).state.publishingInProgress = (scanResult st now).inProgress ∧
    (runScan st now).state.publishingQueue = (scanResult st now).queue := by
  exact ⟨rfl, rfl, rfl, rfl⟩

/-- When the loop mutated the document, the scan persists it through the
data store (the active row now holds the processed schedule). -/
theorem runScan_store_changed (st : SchedState) (now : Int)
    (h : (scanResult st now).dataWasChanged = true) :
    (runScan st now).state.store
      = saveStore st.activeDbIndex
          { activeDoc st with schedule := (scanResult st now).sched } := by
  simp only [runScan, h, if_true]

theorem activeDoc_saveStore (st2 : SchedState) (idx : Int) (d : AppData)
    (h : st2.store = saveStore idx d) :
    activeDoc st2 = { d with activeIndex := some idx } := by
  simp only [activeDoc, loadData, h, saveStore]

/-- With the worker running and a non-empty schedule, the scan cycle is its
main body. -/
theorem check_eq_runScan (st : SchedState) (now : Int)
    (hp : st.isWorkerPaused = false)
    (hne : (activeDoc st).schedule.isEmpty = false) :
    checkScheduleForPublishing st now = runScan st now := by
  simp [checkScheduleForPublishing, hp, hne]

/-- `pendItem` scheduled at time 0, nothing queued, in flight or cached. -/
def boundaryState : SchedState :=
  { store := some { schedule := [pendItem], recentlyPublished := [], activeIndex := some 0 },
    activeDbIndex := 0, publishingInProgress := [], publishingQueue := [],
    isQueueProcessing := false, missedItemsCache := [],
    missedItemsNotificationSent := false, isWorkerPaused := false }

/-- C5 counterexample: an item whose `scheduledAtUTC` lies exactly the
5-minute grace window in the past (`now − scheduledAtUTC = gracePeriodMs`,
i.e. "at least the grace window in the past") is NOT treated as missed: the
scan classifies it as due — it is enqueued, its status stays Pending and the
missed cache stays empty — because the code's missed test is the strict
`scheduleDateTime < fiveMinutesAgo`. -/
theorem boundary_item_is_due_not_missed :
    boundaryState.missedItemsCache = [] ∧
    pendItem.scheduledAtUTC = some 0 ∧
    gracePeriodMs - (0 : Int) = gracePeriodMs ∧
    (checkScheduleForPublishing boundaryState gracePeriodMs).state.missedItemsCache = [] ∧
    (activeDoc (checkScheduleForPublishing boundaryState gracePeriodMs).state).schedule
      = [pendItem] ∧
    isPending pendItem = true ∧
    (checkScheduleForPublishing boundaryState gracePeriodMs).state.publishingQueue
      = [pendItem] := by
  decide

end ZedgeWorker

namespace ZedgeWorker

/-- C5 (amended): for every Pending schedule item whose `scheduledAtUTC` lies
strictly more than the 5-minute grace window in the past (the code's test is
strict; at exactly the window boundary the item is due, see the
counterexample) and whose id is neither in `missedItemsCache` nor in
`publishingInProgress`, one scan cycle marks the item's stored schedule entry
status Failed with the fixed message, persists it, and appends it to
`missedItemsCache` exactly once; a second scan cycle without intervening
mutation leaves it in the cache exactly once. -/
theorem missed_item_transition (st : SchedState) (now now2 : Int) (e : Item) (t : Int)
    (hp : st.isWorkerPaused = false)
    (hmem : e ∈ (activeDoc st).schedule)
    (ht : e.scheduledAtUTC = some t)
    (hpend : isPending e = true)
    (htm : t < now - gracePeriodMs)
    (hcache : ∀ c ∈ st.missedItemsCache, c.id ≠ e.id)
    (hprog : e.id ∉ st.publishingInProgress)
    (hnd : ((activeDoc st).schedule.map Item.id).Nodup) :
    ((checkScheduleForPublishing st now).state.missedItemsCache.countP
        (fun c => c.id == e.id) = 1) ∧
    (markMissed e ∈ (activeDoc (checkScheduleForPublishing st now).state).schedule) ∧
    (∀ x ∈ (activeDoc (checkScheduleForPublishing st now).state).schedule,
      x.id = e.id → x = markMissed e) ∧
    ((checkScheduleForPublishing
        (checkScheduleForPublishing st now).state now2).state.missedItemsCache.countP
      (fun c => c.id == e.id) = 1) := by
  have hne : (activeDoc st).schedule.isEmpty = false := isEmpty_false_of_mem hmem
  have hch := check_eq_runScan st now hp hne
  have hall := nodup_unique_id (activeDoc st).schedule hnd e hmem
  have hmain := scanFold_missed_main now st.missedItemsCache e t ht hpend htm hcache
    (activeDoc st).schedule (scanAcc0 st) hmem hall hnd hprog
  have hsr : scanResult st now
      = List.foldl (scanStep now st.missedItemsCache) (scanAcc0 st)
          (activeDoc st).schedule := rfl
  rw [← hsr] at hmain
  have hparts := runScan_state_parts st now
  have hcount0 : st.missedItemsCache.countP (fun c => c.id == e.id) = 0 := by
    rw [List.countP_eq_zero]
    intro c hc
    simp [hcache c hc]
  have hstore := runScan_store_changed st now hmain.2.2.2
  have hdoc1 : (activeDoc (runScan st now).state).schedule = (scanResult st now).sched := by
    rw [activeDoc_saveStore (runScan st now).state st.activeDbIndex _ hstore]
  have hc1 : (runScan st now).state.missedItemsCache.countP (fun c => c.id == e.id) = 1 := by
    rw [hparts.1, List.countP_append, hcount0, hmain.1]
    rfl
  have hsched1 : ∀ x ∈ (activeDoc (runScan st now).state).schedule,
      x.id = e.id → x = markMissed e := by
    intro x hx hxe
    rw [hdoc1] at hx
    rcases hmain.2.1 x hx hxe with h | h
    · exact h
    · exact absurd h (List.not_mem_nil x)
  have hmm1 : markMissed e ∈ (activeDoc (runScan st now).state).schedule := by
    rw [hdoc1]
    exact hmain.2.2.1
  rw [hch]
  refine ⟨hc1, hmm1, hsched1, ?_⟩
  -- second scan
  have hp2 : (runScan st now).state.isWorkerPaused = false := by
    rw [hparts.2.1]
    exact hp
  have hne2 : (activeDoc (runScan st now).state).schedule.isEmpty = false :=
    isEmpty_false_of_mem hmm1
  rw [check_eq_runScan (runScan st now).state now2 hp2 hne2]
  have hparts2 := runScan_state_parts (runScan st now).state now2
  rw [hparts2.1, List.countP_append, hc1]
  have hnp : ∀ x ∈ (activeDoc (runScan st now).state).schedule,
      x.id = e.id → isPending x = false := by
    intro x hx hxe
    rw [hsched1 x hx hxe]
    rfl
  have hzero := scanFold_nonpending now2 (runScan st now).state.missedItemsCache e.id
    (activeDoc (runScan st now).state).schedule (scanAcc0 (runScan st now).state) hnp
  have hsr2 : scanResult (runScan st now).state now2
      = List.foldl (scanStep now2 (runScan st now).state.missedItemsCache)
          (scanAcc0 (runScan st now).state)
          (activeDoc (runScan st now).state).schedule := rfl
  rw [← hsr2] at hzero
  rw [hzero]
  rfl

/-- Witness for `missed_item_transition`: the 10-minutes-late item of
`boundaryState` is marked missed and cached exactly once across two scans. -/
theorem missed_item_transition_witness :
    ((checkScheduleForPublishing boundaryState 600000).state.missedItemsCache.countP
        (fun c => c.id == pendItem.id) = 1) ∧
    (markMissed pendItem
      ∈ (activeDoc (checkScheduleForPublishing boundaryState 600000).state).schedule) ∧
    ((checkScheduleForPublishing
        (checkScheduleForPublishing boundaryState 600000).state 660000).state.missedItemsCache.countP
      (fun c => c.id == pendItem.id) = 1) :=
  have h := missed_item_transition boundaryState 600000 660000 pendItem 0
    (by decide) (by decide) (by decide) (by decide) (by decide) (by decide) (by decide)
    (by decide)
  ⟨h.1, h.2.1, h.2.2.2⟩

end ZedgeWorker
